import Mathlib

/-!
Shallow embedding of the "War" transcript validator
(`src/project_types.py`, `src/parser.py`, `src/validator.py`).

Python strings are modelled as `String` / `List Char`, Python `int` as
`Int` (or `Nat` where the source value is a parsed digit string and hence
non-negative), Python `dict` as insertion-ordered association lists,
Python `set` as duplicate-free lists (only membership, size and iteration
are used by the source), and fallible operations return `Option`-style
error components.
-/

namespace War

/-- `project_types.Rank` (a `StrEnum`, declaration order is significant). -/
inductive Rank where
  | ace | two | three | four | five | six | seven
  | eight | nine | ten | jack | queen | king
deriving DecidableEq, Repr

/-- `project_types.Suit`. -/
inductive Suit where
  | clubs | diamonds | hearts | spades
deriving DecidableEq, Repr

/-- The `value` string of a `Rank` member, as a character list. -/
def Rank.chars : Rank → List Char
  | .ace => "Ace".data
  | .two => "Two".data
  | .three => "Three".data
  | .four => "Four".data
  | .five => "Five".data
  | .six => "Six".data
  | .seven => "Seven".data
  | .eight => "Eight".data
  | .nine => "Nine".data
  | .ten => "Ten".data
  | .jack => "Jack".data
  | .queen => "Queen".data
  | .king => "King".data

/-- The `value` string of a `Suit` member. -/
def Suit.chars : Suit → List Char
  | .clubs => "Clubs".data
  | .diamonds => "Diamonds".data
  | .hearts => "Hearts".data
  | .spades => "Spades".data

/-- Iteration order of `Rank` (Python `for rank in Rank`). -/
def Rank.list : List Rank :=
  [.ace, .two, .three, .four, .five, .six, .seven,
   .eight, .nine, .ten, .jack, .queen, .king]

/-- Iteration order of `Suit`. -/
def Suit.list : List Suit := [.clubs, .diamonds, .hearts, .spades]

/-- `Rank.from_str`: first member whose value equals the string. -/
def Rank.fromStr (s : List Char) : Option Rank :=
  Rank.list.find? (fun r => r.chars = s)

/-- `Suit.from_str`. -/
def Suit.fromStr (s : List Char) : Option Suit :=
  Suit.list.find? (fun r => r.chars = s)

/-- `rank_order.index(rank)` where `rank_order = [rank for rank in Rank]`
(`validator.CardComparer.determine_winners`). -/
def Rank.toIdx (r : Rank) : Nat := Rank.list.findIdx (fun x => x = r)

/-- `project_types.Card`. -/
structure Card where
  rank : Rank
  suit : Suit
deriving DecidableEq, Repr

/-- `Card.standard_cards()`: rank-major list of all 52 cards. -/
def standardCards : List Card :=
  (Rank.list.map (fun r => Suit.list.map (fun s => Card.mk r s))).flatten

/-- `project_types.Line` and its twelve dataclass subclasses, as a sum. -/
inductive Line where
  | round (roundNumber : Nat)
  | playerLabel (playerNumber : Nat)
  | faceUp (rank : Rank) (suit : Suit)
  | faceDown (rank : Rank) (suit : Suit)
  | roundWinner (playerNumber : Nat) (rank : Rank) (suit : Suit)
  | commencingWar
  | warRound (roundNumber warRoundNumber : Nat)
  | continuingWar
  | gameWinner (winner cardCount : Nat)
  | draw
  | empty
  | malformed (text : String)
deriving DecidableEq, Repr

/-- `project_types.ParseState`. -/
inductive ParseState where
  | regularRound
  | regularPlayer1Label
  | regularPlayer1Card
  | regularPlayer2Label
  | regularPlayer2Card
  | roundWinner
  | commencingWar
  | warRound
  | warPlayer1Label
  | warPlayer1CardUp
  | warPlayer1CardDown
  | warPlayer2Label
  | warPlayer2CardUp
  | warPlayer2CardDown
  | continuingWar
  | winnerPlayer1
  | winnerPlayer2
  | draw
  | noMoreLines
deriving DecidableEq, Repr

/-- `project_types.WarState`. -/
inductive WarState where
  | noWar | warStart | warOngoing | warEnd
deriving DecidableEq, Repr

/-- `project_types.GameEndState`. -/
inductive GameEndState where
  | player1Win | player2Win | draw
deriving DecidableEq, Repr

/-! ### The line grammar (`parser.LineParser`)

The source matches each line against anchored regular expressions.  Every
capture group (`\d+`, `[A-Za-z]+`) is followed in its pattern by a
character outside the captured class, so greedy maximal-munch scanning is
equivalent to the regex semantics; the matchers below scan that way. -/

/-- Whitespace stripped by Python's `str.strip()` (ASCII range; the
grammar contains no other whitespace and lines with `'\n'` never reach
the matcher). -/
def isPyWs (c : Char) : Bool :=
  c = ' ' ∨ c = '\t' ∨ c = '\n' ∨ c = '\r' ∨ c = '\x0b' ∨ c = '\x0c'

/-- `str.strip()` on a character list. -/
def pyStrip (cs : List Char) : List Char :=
  ((cs.dropWhile isPyWs).reverse.dropWhile isPyWs).reverse

/-- Consume an exact literal prefix, returning the rest. -/
def dropLit : List Char → List Char → Option (List Char)
  | [], cs => some cs
  | _ :: _, [] => none
  | a :: l, c :: cs => if c = a then dropLit l cs else none

/-- Numeric value of a digit string (Python `int` on a `\d+` capture,
which cannot fail). -/
def natOfDigits (ds : List Char) : Nat :=
  ds.foldl (fun a c => a * 10 + (c.toNat - 48)) 0

/-- Scan a `\d+` capture (maximal digit run, nonempty). -/
def parseNat? (cs : List Char) : Option (Nat × List Char) :=
  if (cs.takeWhile Char.isDigit).isEmpty then none
  else some (natOfDigits (cs.takeWhile Char.isDigit),
    cs.dropWhile Char.isDigit)

/-- Scan an `[A-Za-z]+` capture (maximal ASCII letter run, nonempty). -/
def parseWord? (cs : List Char) : Option (List Char × List Char) :=
  if (cs.takeWhile Char.isAlpha).isEmpty then none
  else some (cs.takeWhile Char.isAlpha, cs.dropWhile Char.isAlpha)

/-- Shared structural core of the `Round ...` family of patterns:
consume the literal `"Round "`. -/
def matchRoundCore (cs : List Char) : Option (List Char) :=
  dropLit "Round ".data cs

/-- Shared structural core of `Player <n>`-prefixed patterns. -/
def matchPlayerCore (cs : List Char) : Option (Nat × List Char) :=
  match dropLit "Player ".data cs with
  | none => none
  | some r => parseNat? r

/-- Shared structural core of the two card-line patterns:
`- <word> of <word>` followed by a pattern-specific tail. -/
def matchFaceCore (cs : List Char) : Option (List Char × List Char × List Char) :=
  match dropLit "- ".data cs with
  | none => none
  | some r₀ =>
    match parseWord? r₀ with
    | none => none
    | some (w₁, r₁) =>
      match dropLit " of ".data r₁ with
      | none => none
      | some r₂ =>
        match parseWord? r₂ with
        | none => none
        | some (w₂, r₃) => some (w₁, w₂, r₃)

/-- `^Round (?P<round_number>\d+)$`. -/
def matchRound (cs : List Char) : Option Nat :=
  match matchRoundCore cs with
  | none => none
  | some r =>
    match parseNat? r with
    | some (n, rest) => if rest = [] then some n else none
    | none => none

/-- `^Player (?P<player_number>\d+):$`. -/
def matchPlayerLabel (cs : List Char) : Option Nat :=
  match matchPlayerCore cs with
  | none => none
  | some (p, rest) => if rest = [':'] then some p else none

/-- `^- (?P<rank>[A-Za-z]+) of (?P<suit>[A-Za-z]+)$`. -/
def matchFaceUpStruct (cs : List Char) : Option (List Char × List Char) :=
  match matchFaceCore cs with
  | none => none
  | some (w₁, w₂, t) => if t = [] then some (w₁, w₂) else none

/-- `^- (?P<rank>[A-Za-z]+) of (?P<suit>[A-Za-z]+) \(face down\)$`. -/
def matchFaceDownStruct (cs : List Char) : Option (List Char × List Char) :=
  match matchFaceCore cs with
  | none => none
  | some (w₁, w₂, t) => if t = " (face down)".data then some (w₁, w₂) else none

/-- `^Round winner: Player (\d+) \((\w+) of (\w+)\)$` (with the
`Round ` prefix factored through `matchRoundCore`). -/
def matchRoundWinnerStruct (cs : List Char) :
    Option (Nat × List Char × List Char) :=
  match matchRoundCore cs with
  | none => none
  | some r₀ =>
    match dropLit "winner: Player ".data r₀ with
    | none => none
    | some r₁ =>
      match parseNat? r₁ with
      | none => none
      | some (p, r₂) =>
        match dropLit " (".data r₂ with
        | none => none
        | some r₃ =>
          match parseWord? r₃ with
          | none => none
          | some (w₁, r₄) =>
            match dropLit " of ".data r₄ with
            | none => none
            | some r₅ =>
              match parseWord? r₅ with
              | none => none
              | some (w₂, r₆) =>
                if r₆ = [')'] then some (p, w₁, w₂) else none

/-- `^Round (\d+), War (\d+)$`. -/
def matchWarRound (cs : List Char) : Option (Nat × Nat) :=
  match matchRoundCore cs with
  | none => none
  | some r₀ =>
    match parseNat? r₀ with
    | none => none
    | some (n, r₁) =>
      match dropLit ", War ".data r₁ with
      | none => none
      | some r₂ =>
        match parseNat? r₂ with
        | none => none
        | some (w, r₃) => if r₃ = [] then some (n, w) else none

/-- `^Player (\d+) wins with (\d+) cards in their deck$`. -/
def matchGameWinnerStruct (cs : List Char) : Option (Nat × Nat) :=
  match matchPlayerCore cs with
  | none => none
  | some (p, r₁) =>
    match dropLit " wins with ".data r₁ with
    | none => none
    | some r₂ =>
      match parseNat? r₂ with
      | none => none
      | some (c, r₃) =>
        if r₃ = " cards in their deck".data then some (p, c) else none

/-- The rule chain of `LineParser.parse_line` on the already-stripped
line.  The `if/elif` chain means a structural match with failing field
validation falls directly to the final `MalformedLine(line)` (of the
stripped line). -/
def classifyStripped (validPlayers : List Nat) (maxCards : Nat)
    (cs : List Char) : Line :=
  if cs = [] then .empty
  else
    match matchRound cs with
    | some n => .round n
    | none =>
      match matchPlayerLabel cs with
      | some p =>
        if p ∈ validPlayers then .playerLabel p else .malformed (String.mk cs)
      | none =>
        match matchFaceUpStruct cs with
        | some (w₁, w₂) =>
          match Rank.fromStr w₁, Suit.fromStr w₂ with
          | some r, some s => .faceUp r s
          | _, _ => .malformed (String.mk cs)
        | none =>
          match matchFaceDownStruct cs with
          | some (w₁, w₂) =>
            match Rank.fromStr w₁, Suit.fromStr w₂ with
            | some r, some s => .faceDown r s
            | _, _ => .malformed (String.mk cs)
          | none =>
            match matchRoundWinnerStruct cs with
            | some (p, w₁, w₂) =>
              match Rank.fromStr w₁, Suit.fromStr w₂ with
              | some r, some s =>
                if p ∈ validPlayers then .roundWinner p r s
                else .malformed (String.mk cs)
              | _, _ => .malformed (String.mk cs)
            | none =>
              if cs = "Commencing war...".data then .commencingWar
              else
                match matchWarRound cs with
                | some (n, w) => .warRound n w
                | none =>
                  if cs = "Continuing war...".data then .continuingWar
                  else
                    match matchGameWinnerStruct cs with
                    | some (p, c) =>
                      if p ∈ validPlayers ∧ c ≤ maxCards then .gameWinner p c
                      else .malformed (String.mk cs)
                    | none =>
                      if cs = "The game ended in a draw".data then .draw
                      else .malformed (String.mk cs)

/-- `LineParser.parse_line`: lines with embedded newlines are malformed
outright; otherwise strip and classify. -/
def parseLine (validPlayers : List Nat) (maxCards : Nat) (line : String) :
    Line :=
  if '\n' ∈ line.data then .malformed line
  else classifyStripped validPlayers maxCards (pyStrip line.data)

/-- `LineParser.default()`: players `{1, 2}`, 52 cards.  The range check
`0 <= card_count <= 52` degenerates to `card_count ≤ 52` on `Nat`. -/
def parseLineDefault (line : String) : Line := parseLine [1, 2] 52 line

/-! ### The protocol state machine (`parser.ParseStateMachine`) -/

/-- `ParseStateMachine._next_state_game_end`: the closing-phase table.
`none` models the Python method falling through every `case` and
returning `None`. -/
def nextStateGameEnd (s : ParseState) (l : Line) (g : GameEndState) :
    Option ParseState :=
  match s, l, g with
  | .regularRound, .round _, .player1Win => some .winnerPlayer1
  | .regularRound, .round _, .player2Win => some .winnerPlayer2
  | .regularRound, .round _, .draw => some .draw
  | .warRound, .warRound _ _, .player1Win => some .winnerPlayer1
  | .warRound, .warRound _ _, .player2Win => some .winnerPlayer2
  | .warRound, .warRound _ _, .draw => some .draw
  | .winnerPlayer1, .gameWinner w _, _ =>
    if w = 1 then some .noMoreLines else none
  | .winnerPlayer2, .gameWinner w _, _ =>
    if w = 2 then some .noMoreLines else none
  | .draw, .draw, _ => some .noMoreLines
  | _, _, _ => none

/-- `ParseStateMachine._next_state_game_ongoing`. -/
def nextStateGameOngoing (s : ParseState) (l : Line) (w : WarState) :
    Option ParseState :=
  match s, l, w with
  | .regularRound, .round _, .noWar => some .regularPlayer1Label
  | .regularPlayer1Label, .playerLabel p, .noWar =>
    if p = 1 then some .regularPlayer1Card else none
  | .regularPlayer1Card, .faceUp _ _, .noWar => some .regularPlayer2Label
  | .regularPlayer2Label, .playerLabel p, .noWar =>
    if p = 2 then some .regularPlayer2Card else none
  | .regularPlayer2Card, .faceUp _ _, .noWar => some .roundWinner
  | .regularPlayer2Card, .faceUp _ _, .warStart => some .commencingWar
  | .regularPlayer2Card, .faceUp _ _, .warOngoing => some .continuingWar
  | .regularPlayer2Card, .faceUp _ _, .warEnd => some .roundWinner
  | .roundWinner, .roundWinner p _ _, .noWar =>
    if p = 1 ∨ p = 2 then some .regularRound else none
  | .commencingWar, .commencingWar, .warOngoing => some .warRound
  | .warRound, .warRound _ _, .warOngoing => some .warPlayer1Label
  | .warPlayer1Label, .playerLabel p, .warOngoing =>
    if p = 1 then some .warPlayer1CardUp else none
  | .warPlayer1CardUp, .faceUp _ _, .warOngoing => some .warPlayer1CardDown
  | .warPlayer1CardDown, .faceDown _ _, .warOngoing => some .warPlayer2Label
  | .warPlayer2Label, .playerLabel p, .warOngoing =>
    if p = 2 then some .warPlayer2CardUp else none
  | .warPlayer2CardUp, .faceUp _ _, .warOngoing => some .warPlayer2CardDown
  | .warPlayer2CardDown, .faceDown _ _, .warOngoing => some .continuingWar
  | .warPlayer2CardDown, .faceDown _ _, .warEnd => some .roundWinner
  | .continuingWar, .continuingWar, .warOngoing => some .warRound
  | _, _, _ => none

/-- `ParseStateMachine.next_state`: empty lines self-loop; otherwise the
closing-phase table applies whenever a game-end outcome is present. -/
def nextState (s : ParseState) (l : Line) (w : WarState)
    (g : Option GameEndState) : Option ParseState :=
  match l with
  | .empty => some s
  | _ =>
    match g with
    | some ge => nextStateGameEnd s l ge
    | none => nextStateGameOngoing s l w

/-! ### Validation errors (`validator.ValidationError`)

The source carries errors as interpolated message strings; each distinct
message becomes one constructor carrying the interpolated data. -/

/-- One constructor per distinct `ValidationError` message in
`validator.py`. -/
inductive VErr where
  | roundNumberMismatch (expected found : Nat)
  | warRoundNumberMismatch (expected found : Nat)
  | cannotPlayNoPlayer (card : Card)
  | notInDeckOf (card : Card) (player : Nat)
  | notInTopmostGroup (card : Card) (player : Nat)
  | alreadyInPlay (card : Card)
  | notInPlayToTake (card : Card) (player : Nat)
  | alreadyHasFaceUp (player : Nat) (card pending : Card)
  | noFaceUpYet (player : Nat)
  | multipleWinners (winners : List Nat) (claimed : Nat)
  | wrongWinner (actual : Nat) (claimed : Nat)
  | wrongWinningCard (player : Nat) (correct : Option Card) (claimed : Card)
  | singleWinnerButWar (winners : List Nat) (isCommence : Bool)
  | unexpectedLine (line : Line) (state : ParseState) (war : WarState)
      (gameEnd : Option GameEndState) (cardsLeft : List (Nat × Int))
  | malformedLine (text : String)
  | gameDidNotEnd (state : ParseState) (war : WarState)
      (gameEnd : Option GameEndState) (cardsLeft : List (Nat × Int))
deriving DecidableEq, Repr

/-- Whether an error is the post-loop "Game did not end" error
(`WarOutputValidator.validate_lines`); no `_validate_line` branch builds
this constructor. -/
def VErr.isGameDidNotEnd : VErr → Bool
  | .gameDidNotEnd _ _ _ _ => true
  | _ => false

/-! ### Association-list helpers (Python `dict`) -/

/-- `dict` lookup (`d.get(k)` / `d[k]`). -/
def alookup {α β : Type} [DecidableEq α] : List (α × β) → α → Option β
  | [], _ => none
  | (a, b) :: l, k => if a = k then some b else alookup l k

/-- `dict` value update `d[k] = f(d[k])`.  A Python `d[k]` on an absent
key raises `KeyError`; every call site below only updates present keys,
so the absent-key case (a no-op here) is never observable. -/
def aupdate {α β : Type} [DecidableEq α] (f : β → β) (k : α) :
    List (α × β) → List (α × β)
  | [] => []
  | (a, b) :: l => (if a = k then (a, f b) else (a, b)) :: aupdate f k l

/-! ### The deck tracker (`validator.CardGroupDeck`,
`validator.CardConsistencyValidator`) -/

/-- `CardGroupDeck.can_draw`: membership in the first group. -/
def canDraw (groups : List (List Card)) (c : Card) : Bool :=
  match groups with
  | [] => false
  | g :: _ => c ∈ g

/-- `CardGroupDeck.remove_if_present`: remove from the first group that
holds the card, dropping the group if it empties. -/
def removeIfPresent (c : Card) : List (List Card) → List (List Card)
  | [] => []
  | g :: gs =>
    if c ∈ g then
      let g' := g.erase c
      if g' = [] then gs else g' :: gs
    else g :: removeIfPresent c gs

/-- `validator.CardConsistencyValidator` state. `_owner` maps cards to
players, `_cards_in_play` is the shared in-play set, `_card_group_decks`
and `_actual_card_counts` are per-player dicts (counts are Python ints,
hence `Int`). -/
structure CCV where
  owner : List (Card × Nat)
  cardsInPlay : List Card
  cardGroupDecks : List (Nat × List (List Card))
  actualCardCounts : List (Nat × Int)
deriving DecidableEq, Repr

/-- `CardConsistencyValidator.default()`: both players may draw from the
full 52-card pool and hold 26 actual cards. -/
def CCV.default : CCV where
  owner := []
  cardsInPlay := []
  cardGroupDecks := [(1, [standardCards]), (2, [standardCards])]
  actualCardCounts := [(1, 26), (2, 26)]

/-- `_ensure_card_not_duplicated`. -/
def ensureCardNotDuplicated (v : CCV) (c : Card) (p : Nat) : Option VErr :=
  match alookup v.owner c with
  | some o => if o ≠ p then some (.notInDeckOf c p) else none
  | none => none

/-- `_ensure_card_in_deck`.  (A Python lookup of an absent player would
raise `KeyError`; modelled as the same failure, never reached for the
players of the standard setup.) -/
def ensureCardInDeck (v : CCV) (c : Card) (p : Nat) : Option VErr :=
  match alookup v.cardGroupDecks p with
  | some d => if canDraw d c then none else some (.notInTopmostGroup c p)
  | none => some (.notInTopmostGroup c p)

/-- `_ensure_card_not_in_play`. -/
def ensureCardNotInPlay (v : CCV) (c : Card) : Option VErr :=
  if c ∈ v.cardsInPlay then some (.alreadyInPlay c) else none

/-- `_validate_played_card_rules`: the three checks in source order. -/
def validatePlayedCardRules (v : CCV) (c : Card) (p : Nat) : Option VErr :=
  match ensureCardNotDuplicated v c p with
  | some e => some e
  | none =>
    match ensureCardInDeck v c p with
    | some e => some e
    | none => ensureCardNotInPlay v c

/-- `card_played_by`: on success, drop the owner entry, add the card to
the in-play set, decrement the player's live count, and remove the card
from every deck (the loop over `_card_group_decks.items()`). -/
def cardPlayedBy (v : CCV) (c : Card) (p : Nat) : Option VErr × CCV :=
  match validatePlayedCardRules v c p with
  | some e => (some e, v)
  | none =>
    (none,
      { v with
        owner := v.owner.filter (fun x => x.1 ≠ c)
        cardsInPlay := v.cardsInPlay ++ [c]
        actualCardCounts := aupdate (· - 1) p v.actualCardCounts
        cardGroupDecks :=
          v.cardGroupDecks.map (fun x => (x.1, removeIfPresent c x.2)) })

/-- `_ensure_card_in_play`. -/
def ensureCardInPlay (v : CCV) (c : Card) (p : Nat) : Option VErr :=
  if (alookup v.owner c).isNone ∧ c ∉ v.cardsInPlay then
    some (.notInPlayToTake c p)
  else none

/-- `_validate_cards_added_rules`: first failing card, if any. -/
def validateCardsAddedRules (v : CCV) (cards : List Card) (p : Nat) :
    Option VErr :=
  match cards with
  | [] => none
  | c :: cs =>
    match ensureCardInPlay v c p with
    | some e => some e
    | none => validateCardsAddedRules v cs p

/-- `_cards_added_to_deck_bottom`: validate, then append the cards as one
trailing group onto the player's deck. -/
def cardsAddedToDeckBottom (v : CCV) (cards : List Card) (p : Nat) :
    Option VErr × CCV :=
  match validateCardsAddedRules v cards p with
  | some e => (some e, v)
  | none =>
    (none, { v with cardGroupDecks := aupdate (· ++ [cards]) p v.cardGroupDecks })

/-- `cards_in_play_taken_by`: the live-count increment and the clearing
of the in-play set happen even when the (unreachable) validation error is
returned, exactly as in the source. -/
def cardsInPlayTakenBy (v : CCV) (p : Nat) : Option VErr × CCV :=
  let r := cardsAddedToDeckBottom v v.cardsInPlay p
  (r.1,
    { r.2 with
      actualCardCounts :=
        aupdate (· + (v.cardsInPlay.length : Int)) p r.2.actualCardCounts
      cardsInPlay := [] })

/-! ### The trick comparer (`validator.CardComparer`) -/

/-- `validator.CardComparer` state: the expected players and the pending
face-up cards (`_played_cards`). -/
structure CardComparer where
  playerIds : List Nat
  playedCards : List (Nat × Card)
deriving DecidableEq, Repr

/-- `face_up_card_played_by`. -/
def faceUpCardPlayedBy (cp : CardComparer) (c : Card) (p : Nat) :
    Option VErr × CardComparer :=
  match alookup cp.playedCards p with
  | some pending => (some (.alreadyHasFaceUp p c pending), cp)
  | none => (none, { cp with playedCards := cp.playedCards ++ [(p, c)] })

/-- The loop body of `determine_winners`.  Note that, as in the source,
`best_so_far` is never replaced after the first player (irrelevant for
the two-player default). -/
def determineWinnersAux (pc : List (Nat × Card)) :
    List Nat → Option Card → List Nat → Except VErr (List Nat)
  | [], _, ret => .ok ret
  | p :: ps, best, ret =>
    match alookup pc p with
    | none => .error (.noFaceUpYet p)
    | some c =>
      match best with
      | none => determineWinnersAux pc ps (some c) (ret ++ [p])
      | some b =>
        let selfRank := c.rank.toIdx
        let bestRank := b.rank.toIdx
        let ret₁ := if bestRank < selfRank then [] else ret
        let ret₂ := if bestRank ≤ selfRank then ret₁ ++ [p] else ret₁
        determineWinnersAux pc ps (some b) ret₂

/-- `CardComparer.determine_winners`. -/
def determineWinners (cp : CardComparer) : Except VErr (List Nat) :=
  determineWinnersAux cp.playedCards cp.playerIds none []

/-! ### The orchestrator (`validator.WarOutputValidator`) -/

/-- `validator.ValidationResult`. -/
structure ValidationResult where
  lineNumber : Nat
  state : ParseState
  error : Option VErr
deriving DecidableEq, Repr

/-- The mutable state of one `WarOutputValidator` (the line counter is
threaded separately by `validateLinesAux`, mirroring `_line_number`). -/
structure VState where
  machineState : ParseState
  ccv : CCV
  comparer : CardComparer
  roundNumber : Nat
  warRoundNumber : Nat
  warState : WarState
  gameEndState : Option GameEndState
  encounteredGameDone : Bool
deriving DecidableEq, Repr

/-- A freshly constructed `WarOutputValidator.default()`. -/
def initialVState : VState where
  machineState := .regularRound
  ccv := CCV.default
  comparer := { playerIds := [1, 2], playedCards := [] }
  roundNumber := 1
  warRoundNumber := 0
  warState := .noWar
  gameEndState := none
  encounteredGameDone := false

/-- `_get_players_left_after_n_draws`: players whose count exceeds `n`,
in dict insertion order. -/
def getPlayersLeftAfterNDraws (counts : List (Nat × Int)) (n : Int) :
    List Nat :=
  (counts.filter (fun x => n < x.2)).map (·.1)

/-- `_update_game_end_state_after_n_draws`, including the nested (dead)
check for player 2 inside the player-1 branch: when exactly one player
is left and it is not player 1, the state is left unchanged. -/
def updateGameEndStateAfterNDraws (counts : List (Nat × Int)) (n : Int)
    (g : Option GameEndState) : Option GameEndState :=
  let playersLeft := getPlayersLeftAfterNDraws counts n
  if playersLeft.length = 0 then some .draw
  else if playersLeft.length = 1 then
    if playersLeft.headD 0 = 1 then
      if playersLeft.headD 0 = 2 then some .player2Win else some .player1Win
    else g
  else g

/-- `_get_player_to_play`. -/
def getPlayerToPlay (s : ParseState) : Option Nat :=
  match s with
  | .regularPlayer1Card | .warPlayer1CardUp | .warPlayer1CardDown => some 1
  | .regularPlayer2Card | .warPlayer2CardUp | .warPlayer2CardDown => some 2
  | _ => none

/-- The common tail of `_validate_line`: feed the record to
`ParseStateMachine.update_state`; `None` becomes the "Unexpected line"
error and leaves the machine state unchanged. -/
def machineUpdate (v : VState) (l : Line) : Option VErr × VState :=
  match nextState v.machineState l v.warState v.gameEndState with
  | some s' => (none, { v with machineState := s' })
  | none =>
    (some (.unexpectedLine l v.machineState v.warState v.gameEndState
        v.ccv.actualCardCounts), v)

/-- The war-state escalation after a trick slot completes (the
`match (self._war_state, line)` block of the card-line case). -/
def warStateAfterResolve (w : WarState) (winners : List Nat) : WarState :=
  if 1 < winners.length then
    if w = .noWar then .warStart else .warOngoing
  else
    if w = .warOngoing then .warEnd else .noWar

/-- The face-up-only sub-step of the card-line case: a face-up card is
additionally recorded in the trick comparer (`isinstance(line,
FaceUpCardLine)` in the source). -/
def faceUpRecordStep (v₁ : VState) (l : Line) (c : Card) (p : Nat) :
    Option VErr × VState :=
  match l with
  | .faceUp _ _ =>
    match faceUpCardPlayedBy v₁.comparer c p with
    | (some e, _) => (some e, v₁)
    | (none, cp') => (none, { v₁ with comparer := cp' })
  | _ => (none, v₁)

/-- Ask the comparer and escalate or de-escalate the war state; a
comparer error is ignored ("still waiting for cards to be played"). -/
def resolveCompare (v₂ : VState) (l : Line) : Option VErr × VState :=
  match determineWinners v₂.comparer with
  | .error _ => machineUpdate v₂ l
  | .ok winners =>
    machineUpdate
      { v₂ with warState := warStateAfterResolve v₂.warState winners } l

/-- The trick-resolution sub-step of the card-line case: comparison only
happens on a completed trick slot (no-war face-up, or war-ongoing
face-down); otherwise the machine is advanced directly. -/
def resolveStep (v₂ : VState) (l : Line) : Option VErr × VState :=
  match v₂.warState, l with
  | .noWar, .faceUp _ _ => resolveCompare v₂ l
  | .warOngoing, .faceDown _ _ => resolveCompare v₂ l
  | _, _ => machineUpdate v₂ l

/-- The `FaceUpCardLine | FaceDownCardLine` case of `_validate_line`. -/
def faceCardStep (v : VState) (l : Line) (c : Card) : Option VErr × VState :=
  match getPlayerToPlay v.machineState with
  | none => (some (.cannotPlayNoPlayer c), v)
  | some p =>
    match cardPlayedBy v.ccv c p with
    | (some e, _) => (some e, v)
    | (none, ccv') =>
      match faceUpRecordStep { v with ccv := ccv' } l c p with
      | (some e, v₂) => (some e, v₂)
      | (none, v₂) => resolveStep v₂ l

/-- The `RoundWinnerLine` case of `_validate_line` (after the round
counter was already incremented into `v₁`). -/
def roundWinnerStep (v₁ : VState) (l : Line) (pn : Nat) (rk : Rank)
    (su : Suit) : Option VErr × VState :=
  match determineWinners v₁.comparer with
  | .error e => (some e, v₁)
  | .ok winners =>
    if 1 < winners.length then (some (.multipleWinners winners pn), v₁)
    else
      let winningPlayer := winners.headD 0
      if winningPlayer ≠ pn then
        (some (.wrongWinner winningPlayer pn), v₁)
      else
        let correctCard := alookup v₁.comparer.playedCards winningPlayer
        if some (⟨rk, su⟩ : Card) ≠ correctCard then
          (some (.wrongWinningCard winningPlayer correctCard ⟨rk, su⟩), v₁)
        else
          match cardsInPlayTakenBy v₁.ccv pn with
          | (some e, ccv') => (some e, { v₁ with ccv := ccv' })
          | (none, ccv') =>
            machineUpdate
              { v₁ with
                ccv := ccv'
                comparer := { v₁.comparer with playedCards := [] }
                warState := .noWar } l

/-- The `CommencingWarLine | ContinuingWarLine` case of
`_validate_line`. -/
def warDeclStep (v : VState) (l : Line) : Option VErr × VState :=
  match determineWinners v.comparer with
  | .error e => (some e, v)
  | .ok winners =>
    let isCommence := match l with | .commencingWar => true | _ => false
    if winners.length = 1 then
      (some (.singleWinnerButWar winners isCommence), v)
    else
      machineUpdate
        { v with
          warRoundNumber := if isCommence then 1 else v.warRoundNumber + 1
          warState := .warOngoing
          comparer := { v.comparer with playedCards := [] } } l

/-- The record-type dispatch of `WarOutputValidator._validate_line`:
run the record's semantic checks (mutating the trackers), then advance
the machine.  Returns the error, if any, and the validator state at
return time. -/
def dispatchLine (v : VState) (l : Line) : Option VErr × VState :=
  match l with
  | .round n =>
    if v.roundNumber ≠ n then (some (.roundNumberMismatch v.roundNumber n), v)
    else
      machineUpdate
        { v with
          gameEndState :=
            updateGameEndStateAfterNDraws v.ccv.actualCardCounts 0
              v.gameEndState } l
  | .warRound n w =>
    if v.roundNumber ≠ n then (some (.roundNumberMismatch v.roundNumber n), v)
    else if v.warRoundNumber ≠ w then
      (some (.warRoundNumberMismatch v.warRoundNumber w), v)
    else
      machineUpdate
        { v with
          gameEndState :=
            updateGameEndStateAfterNDraws v.ccv.actualCardCounts 2
              v.gameEndState } l
  | .faceUp rk su | .faceDown rk su => faceCardStep v l ⟨rk, su⟩
  | .roundWinner pn rk su =>
    roundWinnerStep { v with roundNumber := v.roundNumber + 1 } l pn rk su
  | .commencingWar | .continuingWar => warDeclStep v l
  | .gameWinner _ _ | .draw =>
    machineUpdate { v with encounteredGameDone := true } l
  | .malformed t => (some (.malformedLine t), v)
  | .playerLabel _ | .empty => machineUpdate v l

/-- `WarOutputValidator._validate_line`: classify the raw line, then
dispatch on the record. -/
def validateLine (v : VState) (s : String) : Option VErr × VState :=
  dispatchLine v (parseLineDefault s)

/-- The loop of `validate_lines` plus the post-loop incompleteness check;
`ln` mirrors `_line_number` (starting at 1, incremented after every
successful line).  The final validator state is returned alongside the
result. -/
def validateLinesAux : VState → Nat → List String → ValidationResult × VState
  | v, ln, [] =>
    if v.encounteredGameDone then (⟨ln, v.machineState, none⟩, v)
    else
      (⟨ln, v.machineState,
        some (.gameDidNotEnd v.machineState v.warState v.gameEndState
          v.ccv.actualCardCounts)⟩, v)
  | v, ln, s :: rest =>
    match validateLine v s with
    | (some e, v') => (⟨ln, v'.machineState, some e⟩, v')
    | (none, v') => validateLinesAux v' (ln + 1) rest

/-- `WarOutputValidator.default().validate_lines(lines)`. -/
def validateLinesDefault (lines : List String) : ValidationResult :=
  (validateLinesAux initialVState 1 lines).1

/-! ### A concrete complete transcript

Player 1 plays the high half of the standard deck against the low half
and wins all 26 rounds; the closing `GameWinner` line then declares a
card count of 7 although player 1 actually holds all 52 cards. -/

/-- `str(Card)`: `"<Rank> of <Suit>"`. -/
def cardName (c : Card) : String :=
  String.mk c.rank.chars ++ " of " ++ String.mk c.suit.chars

/-- The six transcript lines of regular round `i + 1` in which player 1
plays `hi` and beats player 2's `lo`. -/
def roundBlock (i : Nat) (hi lo : Card) : List String :=
  ["Round " ++ toString (i + 1),
   "Player 1:",
   "- " ++ cardName hi,
   "Player 2:",
   "- " ++ cardName lo,
   "Round winner: Player 1 (" ++ cardName hi ++ ")"]

/-- 26 rounds (high half beats low half rank-wise every time), the
game-ending `Round 27` header, and a `GameWinner` line whose declared
card count (7) differs from player 1's actual 52 remaining cards. -/
def wrongCountTranscript : List String :=
  (((standardCards.drop 26).zip (standardCards.take 26)).enum.map
      (fun x => roundBlock x.1 x.2.1 x.2.2)).flatten
    ++ ["Round 27", "Player 1 wins with 7 cards in their deck"]

/-! ### Reachability of tracker states -/

/-- `CardConsistencyValidator` states reachable from the standard
two-player start by successful `card_played_by` and
`cards_in_play_taken_by` calls.  A collection names a player present in
the deck dict: for any other player the Python call raises `KeyError`
inside `add_set_to_bottom` instead of completing, so it is not a
successful operation. -/
inductive Reach : CCV → Prop
  | init : Reach CCV.default
  | play {v v' : CCV} {c : Card} {p : Nat} :
      Reach v → cardPlayedBy v c p = (none, v') → Reach v'
  | collect {v v' : CCV} {p : Nat} :
      Reach v → (alookup v.cardGroupDecks p).isSome →
      cardsInPlayTakenBy v p = (none, v') → Reach v'

/-- A sequence of successful `card_played_by` calls with no intervening
trick collection. -/
inductive PlaysOnly : CCV → CCV → Prop
  | refl (v : CCV) : PlaysOnly v v
  | step {v v₁ v₂ : CCV} {c : Card} {p : Nat} :
      cardPlayedBy v c p = (none, v₁) → PlaysOnly v₁ v₂ → PlaysOnly v v₂

/-- `sum(remainingCounts())`: the sum of the per-player live counts. -/
def sumCounts (v : CCV) : Int := (v.actualCardCounts.map (·.2)).sum

/-- The 0-based index of the first line on which `_validate_line`
reports an error, threading the state exactly as the loop does. -/
def firstFailIdx : VState → List String → Option Nat
  | _, [] => none
  | v, s :: rest =>
    match validateLine v s with
    | (some _, _) => some 0
    | (none, v') => (firstFailIdx v' rest).map (· + 1)

/-! ### The grammar rules as an indexed family

For stating the classifier's fall-through behaviour, the ten grammar
rules of `parse_line` are numbered in their priority order. -/

/-- Full outcome of grammar rule `i` alone on a (stripped) line:
structural match plus field validation, `none` if either fails. -/
def ruleResult (vp : List Nat) (mc : Nat) (i : Nat) (cs : List Char) :
    Option Line :=
  match i with
  | 0 => (matchRound cs).map Line.round
  | 1 =>
    match matchPlayerLabel cs with
    | some p => if p ∈ vp then some (.playerLabel p) else none
    | none => none
  | 2 =>
    match matchFaceUpStruct cs with
    | some (w₁, w₂) =>
      match Rank.fromStr w₁, Suit.fromStr w₂ with
      | some r, some s => some (.faceUp r s)
      | _, _ => none
    | none => none
  | 3 =>
    match matchFaceDownStruct cs with
    | some (w₁, w₂) =>
      match Rank.fromStr w₁, Suit.fromStr w₂ with
      | some r, some s => some (.faceDown r s)
      | _, _ => none
    | none => none
  | 4 =>
    match matchRoundWinnerStruct cs with
    | some (p, w₁, w₂) =>
      match Rank.fromStr w₁, Suit.fromStr w₂ with
      | some r, some s => if p ∈ vp then some (.roundWinner p r s) else none
      | _, _ => none
    | none => none
  | 5 => if cs = "Commencing war...".data then some .commencingWar else none
  | 6 => (matchWarRound cs).map (fun x => Line.warRound x.1 x.2)
  | 7 => if cs = "Continuing war...".data then some .continuingWar else none
  | 8 =>
    match matchGameWinnerStruct cs with
    | some (p, c) =>
      if p ∈ vp ∧ c ≤ mc then some (.gameWinner p c) else none
    | none => none
  | 9 => if cs = "The game ended in a draw".data then some .draw else none
  | _ => none

/-- Modelled from the spec: the result of "trying the remaining rules in
priority order" after rule `i` — the first rule after `i` that fully
succeeds. -/
def laterSuccess (vp : List Nat) (mc : Nat) (i : Nat) (cs : List Char) :
    Option Line :=
  ((List.range 10).filter (fun j => i < j)).findSome?
    (fun j => ruleResult vp mc j cs)

/-- Modelled from the spec: the classification the spec describes for a
line whose rule-`i` structural match failed field validation — "the
first later rule that fully succeeds, or `Malformed` carrying the
original text if none does". -/
def specFallthrough (vp : List Nat) (mc : Nat) (i : Nat) (s : String) : Line :=
  match laterSuccess vp mc i s.data with
  | some rec => rec
  | none => .malformed s

/-- A line that structurally matches grammar rule `i` (under the default
configuration) while its captured fields fail secondary validation:
out-of-range player number, unrecognized rank/suit token, or card count
above 52. -/
inductive StructFail : List Char → Nat → Prop
  | playerLabel {cs : List Char} {p : Nat} :
      matchPlayerLabel cs = some p → p ∉ ([1, 2] : List Nat) →
      StructFail cs 1
  | faceUp {cs w₁ w₂ : List Char} :
      matchFaceUpStruct cs = some (w₁, w₂) →
      Rank.fromStr w₁ = none ∨ Suit.fromStr w₂ = none →
      StructFail cs 2
  | faceDown {cs w₁ w₂ : List Char} :
      matchFaceDownStruct cs = some (w₁, w₂) →
      Rank.fromStr w₁ = none ∨ Suit.fromStr w₂ = none →
      StructFail cs 3
  | roundWinner {cs : List Char} {p : Nat} {w₁ w₂ : List Char} :
      matchRoundWinnerStruct cs = some (p, w₁, w₂) →
      p ∉ ([1, 2] : List Nat) ∨ Rank.fromStr w₁ = none ∨
        Suit.fromStr w₂ = none →
      StructFail cs 4
  | gameWinner {cs : List Char} {p c : Nat} :
      matchGameWinnerStruct cs = some (p, c) →
      p ∉ ([1, 2] : List Nat) ∨ 52 < c →
      StructFail cs 8

/-! ## Helper lemmas -/

theorem alookup_aupdate {α β : Type} [DecidableEq α] (f : β → β) (k : α)
    (l : List (α × β)) : alookup (aupdate f k l) k = (alookup l k).map f := by
  induction l with
  | nil => rfl
  | cons x l ih =>
    obtain ⟨a, b⟩ := x
    simp only [aupdate]
    by_cases h : a = k
    · subst h; rw [if_pos rfl]; simp [alookup]
    · rw [if_neg h]; simp [alookup, h, ih]

theorem validateCardsAddedRules_eq_none (v : CCV) (p : Nat)
    (cards : List Card) (h : ∀ c ∈ cards, c ∈ v.cardsInPlay) :
    validateCardsAddedRules v cards p = none := by
  induction cards with
  | nil => rfl
  | cons c cs ih =>
    have hc : c ∈ v.cardsInPlay := h c (by simp)
    simp only [validateCardsAddedRules, ensureCardInPlay]
    rw [if_neg (by simp [hc])]
    exact ih (fun c' hc' => h c' (by simp [hc']))

/-- The defensive check of `cards_in_play_taken_by` can never fire: every
card it inspects is a member of the very in-play set it checks against. -/
theorem cardsInPlayTakenBy_fst_eq_none (v : CCV) (p : Nat) :
    (cardsInPlayTakenBy v p).1 = none := by
  simp only [cardsInPlayTakenBy, cardsAddedToDeckBottom,
    validateCardsAddedRules_eq_none v p v.cardsInPlay (fun _ hc => hc)]

theorem cardPlayedBy_eq_none {v v' : CCV} {c : Card} {p : Nat}
    (h : cardPlayedBy v c p = (none, v')) :
    validatePlayedCardRules v c p = none ∧
    v' = { v with
      owner := v.owner.filter (fun x => x.1 ≠ c)
      cardsInPlay := v.cardsInPlay ++ [c]
      actualCardCounts := aupdate (· - 1) p v.actualCardCounts
      cardGroupDecks :=
        v.cardGroupDecks.map (fun x => (x.1, removeIfPresent c x.2)) } := by
  unfold cardPlayedBy at h
  cases hv : validatePlayedCardRules v c p with
  | some e => rw [hv] at h; simp at h
  | none => rw [hv] at h; simp only [Prod.mk.injEq] at h; exact ⟨rfl, h.2.symm⟩

theorem validatePlayedCardRules_eq_none_inv {v : CCV} {c : Card} {p : Nat}
    (h : validatePlayedCardRules v c p = none) :
    ensureCardNotDuplicated v c p = none ∧ ensureCardInDeck v c p = none ∧
    c ∉ v.cardsInPlay := by
  unfold validatePlayedCardRules at h
  cases h1 : ensureCardNotDuplicated v c p with
  | some e => rw [h1] at h; simp at h
  | none =>
    rw [h1] at h
    cases h2 : ensureCardInDeck v c p with
    | some e => rw [h2] at h; simp at h
    | none =>
      rw [h2] at h
      unfold ensureCardNotInPlay at h
      refine ⟨rfl, rfl, fun hc => ?_⟩
      rw [if_pos hc] at h
      exact Option.noConfusion h

theorem ensureCardInDeck_eq_none_inv {v : CCV} {c : Card} {p : Nat}
    (h : ensureCardInDeck v c p = none) :
    ∃ d, alookup v.cardGroupDecks p = some d ∧ canDraw d c = true := by
  unfold ensureCardInDeck at h
  cases hd : alookup v.cardGroupDecks p with
  | none => simp [hd] at h
  | some d =>
    simp only [hd] at h
    refine ⟨d, rfl, ?_⟩
    by_cases hc : canDraw d c = true
    · exact hc
    · rw [if_neg hc] at h; exact Option.noConfusion h

/-- Key-structure and card-conservation invariant of reachable tracker
states: the per-player dicts keep their two entries for players 1 and 2,
and the live counts plus the in-play set always account for 52 cards. -/
theorem reach_invariant (v : CCV) (hv : Reach v) :
    (∃ a b, v.actualCardCounts = [(1, a), (2, b)]) ∧
    (∃ d₁ d₂, v.cardGroupDecks = [(1, d₁), (2, d₂)]) ∧
    sumCounts v + (v.cardsInPlay.length : Int) = 52 := by
  induction hv with
  | init =>
    exact ⟨⟨26, 26, rfl⟩, ⟨[standardCards], [standardCards], rfl⟩, by decide⟩
  | @play v v' c p hr hstep ih =>
    obtain ⟨⟨a, b, hc⟩, ⟨d₁, d₂, hd⟩, hsum⟩ := ih
    obtain ⟨hval, hv'⟩ := cardPlayedBy_eq_none hstep
    obtain ⟨-, hdeck, -⟩ := validatePlayedCardRules_eq_none_inv hval
    obtain ⟨d, hlk, -⟩ := ensureCardInDeck_eq_none_inv hdeck
    have hp : p = 1 ∨ p = 2 := by
      rw [hd] at hlk
      by_cases h1 : (1 : Nat) = p
      · exact Or.inl h1.symm
      · by_cases h2 : (2 : Nat) = p
        · exact Or.inr h2.symm
        · simp [alookup, h1, h2] at hlk
    subst hv'
    simp only [sumCounts, hc] at hsum
    rcases hp with hp | hp <;> subst hp
    · refine ⟨⟨a - 1, b, by simp [hc, aupdate]⟩,
        ⟨removeIfPresent c d₁, removeIfPresent c d₂, by simp [hd]⟩, ?_⟩
      simp only [sumCounts, hc, aupdate]
      simp at hsum ⊢
      omega
    · refine ⟨⟨a, b - 1, by simp [hc, aupdate]⟩,
        ⟨removeIfPresent c d₁, removeIfPresent c d₂, by simp [hd]⟩, ?_⟩
      simp only [sumCounts, hc, aupdate]
      simp at hsum ⊢
      omega
  | @collect v v' p hr hkey hstep ih =>
    obtain ⟨⟨a, b, hc⟩, ⟨d₁, d₂, hd⟩, hsum⟩ := ih
    have hval := validateCardsAddedRules_eq_none v p v.cardsInPlay
      (fun _ hmem => hmem)
    unfold cardsInPlayTakenBy cardsAddedToDeckBottom at hstep
    simp only [hval, Prod.mk.injEq] at hstep
    obtain ⟨-, hv'⟩ := hstep
    have hp : p = 1 ∨ p = 2 := by
      rw [hd] at hkey
      by_cases h1 : (1 : Nat) = p
      · exact Or.inl h1.symm
      · by_cases h2 : (2 : Nat) = p
        · exact Or.inr h2.symm
        · simp [alookup, h1, h2] at hkey
    subst hv'
    simp only [sumCounts, hc] at hsum
    rcases hp with hp | hp <;> subst hp
    · refine ⟨⟨a + v.cardsInPlay.length, b, by simp [hc, aupdate]⟩,
        ⟨d₁ ++ [v.cardsInPlay], d₂, by simp [hd, aupdate]⟩, ?_⟩
      simp only [sumCounts, hc, aupdate]
      simp at hsum ⊢
      omega
    · refine ⟨⟨a, b + v.cardsInPlay.length, by simp [hc, aupdate]⟩,
        ⟨d₁, d₂ ++ [v.cardsInPlay], by simp [hd, aupdate]⟩, ?_⟩
      simp only [sumCounts, hc, aupdate]
      simp at hsum ⊢
      omega

/-! ## Claim theorems -/

/-- **C1.**  The claim says the outcome derivation maps "exactly one
player with cards left" to a win for that player, in particular
`Player2Win` when player 2 is the sole holder.  Evaluating
`_update_game_end_state_after_n_draws` at that input shows the nested
player-2 check is dead: with counts `{1: 0, 2: 52}` and threshold 0 the
derived outcome stays `none` instead of becoming `Player2Win`, while the
draw and player-1 cases behave as claimed. -/
theorem c1_player2_win_never_derived :
    updateGameEndStateAfterNDraws [(1, 0), (2, 52)] 0 none = none ∧
    updateGameEndStateAfterNDraws [(1, 52), (2, 0)] 0 none =
      some GameEndState.player1Win ∧
    updateGameEndStateAfterNDraws [(1, 0), (2, 0)] 0 none =
      some GameEndState.draw := by
  refine ⟨by decide, by decide, by decide⟩

/-- **C3 (counterexample).**  Directly after the war player-1 label the
machine is in `WAR_PLAYER_1_CARD_UP`: a face-down card line is rejected
there while a face-up card line is accepted, so the accepted per-player
order cannot place the face-down line first. -/
theorem c3_counterexample :
    nextState .warPlayer1Label (.playerLabel 1) .warOngoing none =
      some .warPlayer1CardUp ∧
    nextState .warPlayer1CardUp (.faceDown .ace .spades) .warOngoing none =
      none ∧
    nextState .warPlayer1CardUp (.faceUp .ace .spades) .warOngoing none =
      some .warPlayer1CardDown := by
  refine ⟨by decide, by decide, by decide⟩

/-- **C3 (amended).**  Within a war round each player's accepted line
order is label, then face-up card, then face-down card; a face-down line
is never accepted while the machine expects the face-up card, and vice
versa. -/
theorem c3_war_order_face_up_before_face_down (r r' : Rank) (s s' : Suit) :
    nextState .warPlayer1Label (.playerLabel 1) .warOngoing none =
      some .warPlayer1CardUp ∧
    nextState .warPlayer1CardUp (.faceUp r s) .warOngoing none =
      some .warPlayer1CardDown ∧
    nextState .warPlayer1CardDown (.faceDown r' s') .warOngoing none =
      some .warPlayer2Label ∧
    nextState .warPlayer2Label (.playerLabel 2) .warOngoing none =
      some .warPlayer2CardUp ∧
    nextState .warPlayer2CardUp (.faceUp r s) .warOngoing none =
      some .warPlayer2CardDown ∧
    nextState .warPlayer2CardDown (.faceDown r' s') .warOngoing none =
      some .continuingWar ∧
    (∀ w, nextState .warPlayer1CardUp (.faceDown r s) w none = none) ∧
    (∀ w, nextState .warPlayer2CardUp (.faceDown r s) w none = none) ∧
    (∀ w, nextState .warPlayer1CardDown (.faceUp r s) w none = none) ∧
    (∀ w, nextState .warPlayer2CardDown (.faceUp r s) w none = none) := by
  refine ⟨rfl, rfl, rfl, rfl, rfl, rfl, ?_, ?_, ?_, ?_⟩ <;>
    intro w <;> cases w <;> rfl

/-- **C10.**  `NO_MORE_LINES` is terminal: for every non-empty line
record, every war state and every (possibly absent) game-end outcome,
the transition function has no entry and answers `Illegal` (`none`);
only the empty-line self-loop leaves the state unchanged. -/
theorem c10_no_more_lines_terminal (l : Line) (hne : l ≠ .empty)
    (w : WarState) (g : Option GameEndState) :
    nextState .noMoreLines l w g = none := by
  cases g with
  | none =>
    cases l <;> first | exact absurd rfl hne | rfl
  | some ge =>
    cases l <;> first | exact absurd rfl hne | (cases ge <;> rfl)

/-- Witness for C10 at a concrete record. -/
theorem c10_witness :
    nextState .noMoreLines .draw .noWar none = none :=
  c10_no_more_lines_terminal .draw (by decide) .noWar none

/-- **C8.**  For the two-player comparer, `determine_winners` fails
exactly when a face-up card is missing; otherwise the returned list is
precisely the set of players whose card has maximal rank position in the
`Ace < Two < … < King` order (suit ignored): the strict winner alone, or
both players on an exact rank tie. -/
theorem c8_determine_winners (pc : List (Nat × Card)) :
    ((∃ e, determineWinners ⟨[1, 2], pc⟩ = .error e) ↔
      alookup pc 1 = none ∨ alookup pc 2 = none) ∧
    (∀ l c₁ c₂, determineWinners ⟨[1, 2], pc⟩ = .ok l →
      alookup pc 1 = some c₁ → alookup pc 2 = some c₂ →
      ((1 ∈ l ↔ c₂.rank.toIdx ≤ c₁.rank.toIdx) ∧
       (2 ∈ l ↔ c₁.rank.toIdx ≤ c₂.rank.toIdx) ∧
       (c₂.rank.toIdx < c₁.rank.toIdx → l = [1]) ∧
       (c₁.rank.toIdx < c₂.rank.toIdx → l = [2]) ∧
       (c₁.rank.toIdx = c₂.rank.toIdx → l = [1, 2]))) := by
  unfold determineWinners determineWinnersAux
  cases h1 : alookup pc 1 with
  | none => simp [h1]
  | some c₁ =>
    cases h2 : alookup pc 2 with
    | none => simp [h1, h2, determineWinnersAux]
    | some c₂ =>
      simp only [h1, h2, determineWinnersAux]
      constructor
      · simp
      · intro l d₁ d₂ hok hd₁ hd₂
        obtain rfl : c₁ = d₁ := Option.some.inj hd₁
        obtain rfl : c₂ = d₂ := Option.some.inj hd₂
        rcases Nat.lt_trichotomy c₁.rank.toIdx c₂.rank.toIdx with h | h | h
        · rw [if_pos (Nat.le_of_lt h), if_pos h] at hok
          simp at hok
          subst hok
          exact ⟨by simp; omega, by simp; omega,
            fun h' => absurd h' (by omega), fun _ => rfl,
            fun h' => absurd h' (by omega)⟩
        · rw [if_pos (Nat.le_of_eq h), if_neg (by omega)] at hok
          simp at hok
          subst hok
          exact ⟨by simp; omega, by simp; omega,
            fun h' => absurd h' (by omega),
            fun h' => absurd h' (by omega), fun _ => rfl⟩
        · rw [if_neg (by omega), if_neg (by omega)] at hok
          simp at hok
          subst hok
          exact ⟨by simp; omega, by simp; omega,
            fun _ => rfl, fun h' => absurd h' (by omega),
            fun h' => absurd h' (by omega)⟩

/-- Witness for C8: player 1's King beats player 2's Queen. -/
theorem c8_witness :
    (1 ∈ ([1] : List Nat)) ↔
      (Card.mk .queen .spades).rank.toIdx ≤ (Card.mk .king .clubs).rank.toIdx :=
  ((c8_determine_winners [(1, ⟨.king, .clubs⟩), (2, ⟨.queen, .spades⟩)]).2
    [1] ⟨.king, .clubs⟩ ⟨.queen, .spades⟩ rfl rfl rfl).1

/-- **C4.**  On every reachable tracker state, `cards_in_play_taken_by`
returns no error (its defensive check is unreachable), appends the
in-play cards as one new trailing group onto the collecting player's
deck, increments that player's live count by the in-play size, and
clears the in-play set. -/
theorem c4_collect_trick_total (v : CCV) (_hv : Reach v) (p : Nat) :
    (cardsInPlayTakenBy v p).1 = none ∧
    alookup (cardsInPlayTakenBy v p).2.cardGroupDecks p =
      (alookup v.cardGroupDecks p).map (· ++ [v.cardsInPlay]) ∧
    alookup (cardsInPlayTakenBy v p).2.actualCardCounts p =
      (alookup v.actualCardCounts p).map
        (· + (v.cardsInPlay.length : Int)) ∧
    (cardsInPlayTakenBy v p).2.cardsInPlay = [] := by
  have hval := validateCardsAddedRules_eq_none v p v.cardsInPlay
    (fun _ hmem => hmem)
  unfold cardsInPlayTakenBy cardsAddedToDeckBottom
  simp only [hval]
  refine ⟨trivial, ?_, ?_, trivial⟩
  · exact alookup_aupdate _ _ _
  · exact alookup_aupdate _ _ _

/-- Witness for C4 at the freshly initialised tracker. -/
theorem c4_witness :
    (cardsInPlayTakenBy CCV.default 1).1 = none ∧
    alookup (cardsInPlayTakenBy CCV.default 1).2.cardGroupDecks 1 =
      (alookup CCV.default.cardGroupDecks 1).map
        (· ++ [CCV.default.cardsInPlay]) ∧
    alookup (cardsInPlayTakenBy CCV.default 1).2.actualCardCounts 1 =
      (alookup CCV.default.actualCardCounts 1).map
        (· + (CCV.default.cardsInPlay.length : Int)) ∧
    (cardsInPlayTakenBy CCV.default 1).2.cardsInPlay = [] :=
  c4_collect_trick_total CCV.default Reach.init 1

/-- **C5.**  On every tracker state reachable from the standard start by
successful plays and collections, the live counts plus the in-play set
account for exactly 52 cards. -/
theorem c5_deck_invariant (v : CCV) (hv : Reach v) :
    sumCounts v + (v.cardsInPlay.length : Int) = 52 :=
  (reach_invariant v hv).2.2

/-- Witness for C5 at the freshly initialised tracker. -/
theorem c5_witness :
    sumCounts CCV.default + (CCV.default.cardsInPlay.length : Int) = 52 :=
  c5_deck_invariant CCV.default Reach.init

/-- A successfully played card stays in the in-play set across any
further successful plays. -/
theorem playsOnly_preserves_inPlay {v v' : CCV} (h : PlaysOnly v v')
    {c : Card} (hc : c ∈ v.cardsInPlay) : c ∈ v'.cardsInPlay := by
  induction h with
  | refl => exact hc
  | @step v v₁ v₂ c' p hstep htail ih =>
    apply ih
    obtain ⟨-, hv₁⟩ := cardPlayedBy_eq_none hstep
    subst hv₁
    simp [hc]

/-- Playing a card that is already in play always fails (the third check
of `_validate_played_card_rules` fires if the first two pass). -/
theorem cardPlayedBy_of_inPlay (v : CCV) (c : Card) (q : Nat)
    (hc : c ∈ v.cardsInPlay) : ((cardPlayedBy v c q).1).isSome = true := by
  unfold cardPlayedBy validatePlayedCardRules
  cases h1 : ensureCardNotDuplicated v c q with
  | some e => simp
  | none =>
    cases h2 : ensureCardInDeck v c q with
    | some e => simp
    | none => simp [ensureCardNotInPlay, hc]

/-- **C6.**  In every reachable run, once `playCard(c, p)` succeeds, any
later `playCard(c, q)` fails as long as no trick collection happened in
between. -/
theorem c6_no_replay_without_collect (v : CCV) (_hv : Reach v)
    (c : Card) (p : Nat) (v₁ : CCV)
    (hplay : cardPlayedBy v c p = (none, v₁))
    (v₂ : CCV) (hseq : PlaysOnly v₁ v₂) (q : Nat) :
    ((cardPlayedBy v₂ c q).1).isSome = true := by
  have hc₁ : c ∈ v₁.cardsInPlay := by
    obtain ⟨-, hv₁⟩ := cardPlayedBy_eq_none hplay
    subst hv₁
    simp
  exact cardPlayedBy_of_inPlay v₂ c q (playsOnly_preserves_inPlay hseq hc₁)

/-- Witness for C6: player 1 plays the Ace of Clubs from the fresh
tracker; replaying it immediately as player 2 fails. -/
theorem c6_witness :
    ((cardPlayedBy (cardPlayedBy CCV.default ⟨.ace, .clubs⟩ 1).2
      ⟨.ace, .clubs⟩ 2).1).isSome = true :=
  c6_no_replay_without_collect CCV.default Reach.init ⟨.ace, .clubs⟩ 1
    (cardPlayedBy CCV.default ⟨.ace, .clubs⟩ 1).2
    (Prod.ext (by decide) rfl)
    (cardPlayedBy CCV.default ⟨.ace, .clubs⟩ 1).2 (PlaysOnly.refl _) 2

/-! ### Mid-loop errors are never the incompleteness error -/

theorem determineWinnersAux_error {pc : List (Nat × Card)} {ps : List Nat}
    {best : Option Card} {ret : List Nat} {e : VErr}
    (h : determineWinnersAux pc ps best ret = .error e) :
    ∃ p, e = .noFaceUpYet p := by
  induction ps generalizing best ret with
  | nil => simp [determineWinnersAux] at h
  | cons p ps ih =>
    unfold determineWinnersAux at h
    cases hl : alookup pc p with
    | none =>
      simp only [hl, Except.error.injEq] at h
      exact ⟨p, h.symm⟩
    | some c =>
      simp only [hl] at h
      cases best with
      | none => exact ih h
      | some b => exact ih h

theorem determineWinners_error {cp : CardComparer} {e : VErr}
    (h : determineWinners cp = .error e) : e.isGameDidNotEnd = false := by
  obtain ⟨p, rfl⟩ := determineWinnersAux_error h
  rfl

theorem ensureCardNotDuplicated_not_gdne {v : CCV} {c : Card} {p : Nat}
    {e : VErr} (h : ensureCardNotDuplicated v c p = some e) :
    e.isGameDidNotEnd = false := by
  unfold ensureCardNotDuplicated at h
  repeat' split at h
  all_goals first
    | exact Option.noConfusion h
    | (obtain rfl := Option.some.inj h; rfl)

theorem ensureCardInDeck_not_gdne {v : CCV} {c : Card} {p : Nat} {e : VErr}
    (h : ensureCardInDeck v c p = some e) : e.isGameDidNotEnd = false := by
  unfold ensureCardInDeck at h
  repeat' split at h
  all_goals first
    | exact Option.noConfusion h
    | (obtain rfl := Option.some.inj h; rfl)

theorem ensureCardNotInPlay_not_gdne {v : CCV} {c : Card} {e : VErr}
    (h : ensureCardNotInPlay v c = some e) : e.isGameDidNotEnd = false := by
  unfold ensureCardNotInPlay at h
  split at h
  · obtain rfl := Option.some.inj h; rfl
  · exact Option.noConfusion h

theorem validatePlayedCardRules_not_gdne {v : CCV} {c : Card} {p : Nat}
    {e : VErr} (h : validatePlayedCardRules v c p = some e) :
    e.isGameDidNotEnd = false := by
  unfold validatePlayedCardRules at h
  cases h1 : ensureCardNotDuplicated v c p with
  | some e1 =>
    simp only [h1] at h
    obtain rfl := Option.some.inj h
    exact ensureCardNotDuplicated_not_gdne h1
  | none =>
    simp only [h1] at h
    cases h2 : ensureCardInDeck v c p with
    | some e2 =>
      simp only [h2] at h
      obtain rfl := Option.some.inj h
      exact ensureCardInDeck_not_gdne h2
    | none =>
      simp only [h2] at h
      exact ensureCardNotInPlay_not_gdne h

theorem cardPlayedBy_fst_not_gdne {v : CCV} {c : Card} {p : Nat} {e : VErr}
    (h : (cardPlayedBy v c p).1 = some e) : e.isGameDidNotEnd = false := by
  unfold cardPlayedBy at h
  cases hv : validatePlayedCardRules v c p with
  | some e1 =>
    simp only [hv] at h
    obtain rfl := Option.some.inj h
    exact validatePlayedCardRules_not_gdne hv
  | none => simp [hv] at h

theorem faceUpCardPlayedBy_fst_not_gdne {cp : CardComparer} {c : Card}
    {p : Nat} {e : VErr} (h : (faceUpCardPlayedBy cp c p).1 = some e) :
    e.isGameDidNotEnd = false := by
  unfold faceUpCardPlayedBy at h
  cases hl : alookup cp.playedCards p with
  | some pending =>
    simp only [hl] at h
    obtain rfl := Option.some.inj h
    rfl
  | none => simp [hl] at h

theorem machineUpdate_fst_not_gdne {v : VState} {l : Line} {e : VErr}
    (h : (machineUpdate v l).1 = some e) : e.isGameDidNotEnd = false := by
  unfold machineUpdate at h
  cases hn : nextState v.machineState l v.warState v.gameEndState with
  | some s' => simp [hn] at h
  | none =>
    simp only [hn] at h
    obtain rfl := Option.some.inj h
    rfl

theorem faceUpRecordStep_fst_not_gdne {v₁ : VState} {l : Line} {c : Card}
    {p : Nat} {e : VErr} (h : (faceUpRecordStep v₁ l c p).1 = some e) :
    e.isGameDidNotEnd = false := by
  unfold faceUpRecordStep at h
  cases l <;> try exact Option.noConfusion h
  case faceUp rk su =>
    cases hcf : faceUpCardPlayedBy v₁.comparer c p with
    | mk fst snd =>
      cases fst with
      | some e₁ =>
        simp only [hcf] at h
        obtain rfl := Option.some.inj h
        exact faceUpCardPlayedBy_fst_not_gdne (by rw [hcf])
      | none => simp [hcf] at h

theorem resolveCompare_fst_not_gdne {v₂ : VState} {l : Line} {e : VErr}
    (h : (resolveCompare v₂ l).1 = some e) : e.isGameDidNotEnd = false := by
  unfold resolveCompare at h
  cases hdw : determineWinners v₂.comparer with
  | error e₁ =>
    simp only [hdw] at h
    exact machineUpdate_fst_not_gdne h
  | ok winners =>
    simp only [hdw] at h
    exact machineUpdate_fst_not_gdne h

theorem resolveStep_fst_not_gdne {v₂ : VState} {l : Line} {e : VErr}
    (h : (resolveStep v₂ l).1 = some e) : e.isGameDidNotEnd = false := by
  unfold resolveStep at h
  split at h
  · exact resolveCompare_fst_not_gdne h
  · exact resolveCompare_fst_not_gdne h
  · exact machineUpdate_fst_not_gdne h

theorem faceCardStep_fst_not_gdne {v : VState} {l : Line} {c : Card}
    {e : VErr} (h : (faceCardStep v l c).1 = some e) :
    e.isGameDidNotEnd = false := by
  unfold faceCardStep at h
  cases hgp : getPlayerToPlay v.machineState with
  | none =>
    simp only [hgp] at h
    obtain rfl := Option.some.inj h
    rfl
  | some p =>
    simp only [hgp] at h
    cases hcp : cardPlayedBy v.ccv c p with
    | mk fst snd =>
      cases fst with
      | some e₁ =>
        simp only [hcp] at h
        obtain rfl := Option.some.inj h
        exact cardPlayedBy_fst_not_gdne (by rw [hcp])
      | none =>
        simp only [hcp] at h
        cases hfr : faceUpRecordStep { v with ccv := snd } l c p with
        | mk fst₂ v₂ =>
          cases fst₂ with
          | some e₁ =>
            simp only [hfr] at h
            obtain rfl := Option.some.inj h
            exact faceUpRecordStep_fst_not_gdne (by rw [hfr])
          | none =>
            simp only [hfr] at h
            exact resolveStep_fst_not_gdne h

theorem roundWinnerStep_fst_not_gdne {v₁ : VState} {l : Line} {pn : Nat}
    {rk : Rank} {su : Suit} {e : VErr}
    (h : (roundWinnerStep v₁ l pn rk su).1 = some e) :
    e.isGameDidNotEnd = false := by
  unfold roundWinnerStep at h
  cases hdw : determineWinners v₁.comparer with
  | error e₁ =>
    simp only [hdw] at h
    obtain rfl := Option.some.inj h
    exact determineWinners_error hdw
  | ok winners =>
    simp only [hdw] at h
    split at h
    · obtain rfl := Option.some.inj h; rfl
    · split at h
      · obtain rfl := Option.some.inj h; rfl
      · split at h
        · obtain rfl := Option.some.inj h; rfl
        · cases hct : cardsInPlayTakenBy v₁.ccv pn with
          | mk fst ccv' =>
            cases fst with
            | some e₁ =>
              have hz := cardsInPlayTakenBy_fst_eq_none v₁.ccv pn
              rw [hct] at hz
              exact Option.noConfusion hz
            | none =>
              simp only [hct] at h
              exact machineUpdate_fst_not_gdne h

theorem warDeclStep_fst_not_gdne {v : VState} {l : Line} {e : VErr}
    (h : (warDeclStep v l).1 = some e) : e.isGameDidNotEnd = false := by
  unfold warDeclStep at h
  cases hdw : determineWinners v.comparer with
  | error e₁ =>
    simp only [hdw] at h
    obtain rfl := Option.some.inj h
    exact determineWinners_error hdw
  | ok winners =>
    simp only [hdw] at h
    split at h
    · obtain rfl := Option.some.inj h; rfl
    · exact machineUpdate_fst_not_gdne h

/-- No branch of `_validate_line` builds the "Game did not end" error:
that error arises only after the loop in `validate_lines`. -/
theorem dispatchLine_fst_not_gdne {v : VState} {l : Line} {e : VErr}
    (h : (dispatchLine v l).1 = some e) : e.isGameDidNotEnd = false := by
  cases l with
  | round n =>
    simp only [dispatchLine] at h
    split at h
    · obtain rfl := Option.some.inj h; rfl
    · exact machineUpdate_fst_not_gdne h
  | warRound n w =>
    simp only [dispatchLine] at h
    split at h
    · obtain rfl := Option.some.inj h; rfl
    · split at h
      · obtain rfl := Option.some.inj h; rfl
      · exact machineUpdate_fst_not_gdne h
  | faceUp rk su => exact faceCardStep_fst_not_gdne h
  | faceDown rk su => exact faceCardStep_fst_not_gdne h
  | roundWinner pn rk su => exact roundWinnerStep_fst_not_gdne h
  | commencingWar => exact warDeclStep_fst_not_gdne h
  | continuingWar => exact warDeclStep_fst_not_gdne h
  | gameWinner wn cc => exact machineUpdate_fst_not_gdne h
  | draw => exact machineUpdate_fst_not_gdne h
  | malformed t =>
    simp only [dispatchLine] at h
    obtain rfl := Option.some.inj h
    rfl
  | playerLabel p => exact machineUpdate_fst_not_gdne h
  | empty => exact machineUpdate_fst_not_gdne h

theorem validateLine_fst_not_gdne {v : VState} {s : String} {e : VErr}
    (h : (validateLine v s).1 = some e) : e.isGameDidNotEnd = false :=
  dispatchLine_fst_not_gdne h

/-- Behaviour of the `validate_lines` loop relative to the first failing
line: with no failing line the reported number is one past the input
(and any error is the incompleteness error); with a first failing line
at 0-based index `i` the reported number is `ln + i` and the error is a
non-incompleteness error. -/
theorem validateLinesAux_spec (ls : List String) : ∀ (v : VState) (ln : Nat),
    (firstFailIdx v ls = none →
      (validateLinesAux v ln ls).1.lineNumber = ln + ls.length ∧
      ((validateLinesAux v ln ls).1.error = none ∨
        ∃ e, (validateLinesAux v ln ls).1.error = some e ∧
          e.isGameDidNotEnd = true)) ∧
    (∀ i, firstFailIdx v ls = some i →
      i < ls.length ∧
      (validateLinesAux v ln ls).1.lineNumber = ln + i ∧
      ∃ e, (validateLinesAux v ln ls).1.error = some e ∧
        e.isGameDidNotEnd = false) := by
  induction ls with
  | nil =>
    intro v ln
    constructor
    · intro _
      unfold validateLinesAux
      constructor
      · split <;> rfl
      · split
        · exact Or.inl rfl
        · exact Or.inr ⟨_, rfl, rfl⟩
    · intro i hff
      simp [firstFailIdx] at hff
  | cons s rest ih =>
    intro v ln
    cases hvl : validateLine v s with
    | mk fst v' =>
      cases fst with
      | some e =>
        constructor
        · intro hff
          simp [firstFailIdx, hvl] at hff
        · intro i hff
          simp only [firstFailIdx, hvl, Option.some.injEq] at hff
          subst hff
          refine ⟨by simp, ?_, e, ?_, ?_⟩
          · simp [validateLinesAux, hvl]
          · simp [validateLinesAux, hvl]
          · exact validateLine_fst_not_gdne (by rw [hvl])
      | none =>
        have ihs := ih v' (ln + 1)
        constructor
        · intro hff
          simp only [firstFailIdx, hvl, Option.map_eq_none'] at hff
          obtain ⟨hln, herr⟩ := ihs.1 hff
          constructor
          · simp only [validateLinesAux, hvl]
            simp [hln]
            omega
          · simpa only [validateLinesAux, hvl] using herr
        · intro i hff
          simp only [firstFailIdx, hvl, Option.map_eq_some'] at hff
          obtain ⟨j, hj, rfl⟩ := hff
          obtain ⟨hlt, hln, e, he, hgd⟩ := ihs.2 j hj
          refine ⟨by simp; omega, ?_, e, ?_, hgd⟩
          · simp only [validateLinesAux, hvl]
            simp [hln]
            omega
          · simpa only [validateLinesAux, hvl] using he

/-- **C9.**  `validate_lines` reports line number `len + 1` (one past
the final line) both on success and when it fails with the
game-did-not-end incompleteness error; every other error is reported
with the 1-based index of the first failing line. -/
theorem c9_reported_line_numbers (lines : List String) :
    ((validateLinesDefault lines).error = none →
      (validateLinesDefault lines).lineNumber = lines.length + 1) ∧
    (∀ e, (validateLinesDefault lines).error = some e →
      e.isGameDidNotEnd = true →
      (validateLinesDefault lines).lineNumber = lines.length + 1) ∧
    (∀ e, (validateLinesDefault lines).error = some e →
      e.isGameDidNotEnd = false →
      ∃ i, firstFailIdx initialVState lines = some i ∧ i < lines.length ∧
        (validateLinesDefault lines).lineNumber = i + 1) := by
  have hs := validateLinesAux_spec lines initialVState 1
  unfold validateLinesDefault
  cases hff : firstFailIdx initialVState lines with
  | none =>
    obtain ⟨hln, herr⟩ := hs.1 hff
    refine ⟨fun _ => by omega, fun e _ _ => by omega, fun e he hgd => ?_⟩
    rcases herr with h0 | ⟨e', he', hgd'⟩
    · rw [h0] at he
      exact Option.noConfusion he
    · rw [he'] at he
      obtain rfl := Option.some.inj he
      rw [hgd'] at hgd
      exact Bool.noConfusion hgd
  | some i =>
    obtain ⟨hlt, hln, e', he', hgd'⟩ := hs.2 i hff
    refine ⟨fun h0 => ?_, fun e he hgd => ?_, fun e _ _ => ?_⟩
    · rw [h0] at he'
      exact Option.noConfusion he'
    · rw [he'] at he
      obtain rfl := Option.some.inj he
      rw [hgd'] at hgd
      exact Bool.noConfusion hgd
    · exact ⟨i, rfl, hlt, by omega⟩

/-- Witness for C9: `"Round 2"` fails at the very first line (round
numbers start at 1), and the reported line number is 1. -/
theorem c9_witness :
    ∃ i, firstFailIdx initialVState ["Round 2"] = some i ∧
      i < (["Round 2"] : List String).length ∧
      (validateLinesDefault ["Round 2"]).lineNumber = i + 1 :=
  (c9_reported_line_numbers ["Round 2"]).2.2 (.roundNumberMismatch 1 2)
    (by decide) (by decide)

/-- The only transitions accepting a `GameWinner` record: a game-end
outcome must be present and the machine must sit in the winner state
matching the named player; the declared card count is never inspected. -/
theorem nextState_gameWinner {st : ParseState} {w c : Nat} {ws : WarState}
    {g : Option GameEndState} {s' : ParseState}
    (h : nextState st (.gameWinner w c) ws g = some s') :
    ((st = .winnerPlayer1 ∧ w = 1) ∨ (st = .winnerPlayer2 ∧ w = 2)) ∧
    ∃ ge, g = some ge := by
  unfold nextState at h
  cases g with
  | none => cases st <;> simp [nextStateGameOngoing] at h
  | some ge =>
    refine ⟨?_, ge, rfl⟩
    cases st
    case winnerPlayer1 =>
      left
      refine ⟨rfl, ?_⟩
      by_cases hw : w = 1
      · exact hw
      · cases ge <;> simp only [nextStateGameEnd] at h <;>
          rw [if_neg hw] at h <;> exact Option.noConfusion h
    case winnerPlayer2 =>
      right
      refine ⟨rfl, ?_⟩
      by_cases hw : w = 2
      · exact hw
      · cases ge <;> simp only [nextStateGameEnd] at h <;>
          rw [if_neg hw] at h <;> exact Option.noConfusion h
    all_goals cases ge <;> simp [nextStateGameEnd] at h

/-- The classifier produces a `GameWinner` record only with a card count
within the configured bound. -/
theorem classifyStripped_gameWinner_le {cs : List Char} {w c : Nat}
    (h : classifyStripped [1, 2] 52 cs = .gameWinner w c) : c ≤ 52 := by
  unfold classifyStripped at h
  repeat' split at h
  all_goals simp_all

theorem parseLine_gameWinner_le {s : String} {w c : Nat}
    (h : parseLineDefault s = .gameWinner w c) : c ≤ 52 := by
  unfold parseLineDefault parseLine at h
  split at h
  · exact Line.noConfusion h
  · exact classifyStripped_gameWinner_le h

/-- **C2 (amended).**  A line accepted as a `GameWinner` record requires
the machine to be in the winner state for the named player with a
derived game-end outcome present; the declared card count is not
compared with the player's actual remaining cards — classification only
bounds it by 52. -/
theorem c2_game_winner_accepted (v : VState) (s : String) (w c : Nat)
    (v' : VState) (hparse : parseLineDefault s = .gameWinner w c)
    (hok : validateLine v s = (none, v')) :
    ((v.machineState = .winnerPlayer1 ∧ w = 1) ∨
     (v.machineState = .winnerPlayer2 ∧ w = 2)) ∧
    (∃ g, v.gameEndState = some g) ∧ c ≤ 52 := by
  have hc := parseLine_gameWinner_le hparse
  unfold validateLine at hok
  rw [hparse] at hok
  simp only [dispatchLine] at hok
  unfold machineUpdate at hok
  split at hok
  · rename_i s' heq
    have heq' :
        nextState v.machineState (.gameWinner w c) v.warState
          v.gameEndState = some s' := heq
    exact ⟨(nextState_gameWinner heq').1, (nextState_gameWinner heq').2, hc⟩
  · simp at hok

/-- Witness for the amended C2: in the `WINNER_PLAYER_1` closing state a
`GameWinner` line naming player 1 with (wrong) count 0 is accepted. -/
theorem c2_amended_witness :
    ((ParseState.winnerPlayer1 = ParseState.winnerPlayer1 ∧ (1 : Nat) = 1) ∨
      (ParseState.winnerPlayer1 = ParseState.winnerPlayer2 ∧ (1 : Nat) = 2)) ∧
    (∃ g, (some GameEndState.player1Win : Option GameEndState) = some g) ∧
    (0 : Nat) ≤ 52 :=
  c2_game_winner_accepted
    { initialVState with
      machineState := .winnerPlayer1, gameEndState := some .player1Win }
    "Player 1 wins with 0 cards in their deck" 1 0
    (validateLine
      { initialVState with
        machineState := .winnerPlayer1, gameEndState := some .player1Win }
      "Player 1 wins with 0 cards in their deck").2
    (by decide) (Prod.ext (by decide) rfl)

/-! ### Structure of successful pattern matches (for C7)

The grammar rules are pairwise exclusive: a line that structurally
matches one rule cannot match any other.  The lemmas below recover the
literal shape of a matching line and refute the other matchers on it. -/

theorem dropLit_inv {l : List Char} : ∀ {cs r : List Char},
    dropLit l cs = some r → cs = l ++ r := by
  induction l with
  | nil =>
    intro cs r h
    simp only [dropLit, Option.some.injEq] at h
    simp [h]
  | cons a l ih =>
    intro cs r h
    cases cs with
    | nil => simp [dropLit] at h
    | cons c cs' =>
      simp only [dropLit] at h
      split at h
      · rename_i hca
        subst hca
        simp [ih h]
      · exact Option.noConfusion h

theorem parseNat?_inv {cs : List Char} {n : Nat} {r : List Char}
    (h : parseNat? cs = some (n, r)) :
    cs = cs.takeWhile Char.isDigit ++ r ∧
    cs.takeWhile Char.isDigit ≠ [] := by
  unfold parseNat? at h
  split at h
  · exact Option.noConfusion h
  · rename_i hne
    simp only [Option.some.injEq, Prod.mk.injEq] at h
    obtain ⟨-, rfl⟩ := h
    exact ⟨(List.takeWhile_append_dropWhile _ _).symm, by simpa using hne⟩

theorem parseWord?_inv {cs : List Char} {w r : List Char}
    (h : parseWord? cs = some (w, r)) :
    cs = w ++ r ∧ w ≠ [] ∧ ∀ ch ∈ w, ch.isAlpha = true := by
  unfold parseWord? at h
  split at h
  · exact Option.noConfusion h
  · rename_i hne
    simp only [Option.some.injEq, Prod.mk.injEq] at h
    obtain ⟨rfl, rfl⟩ := h
    exact ⟨(List.takeWhile_append_dropWhile _ _).symm, by simpa using hne,
      fun ch hch => List.mem_takeWhile_imp hch⟩

theorem cons_ne_of_head {a b : Char} {t u : List Char} (h : a ≠ b) :
    (a :: t) ≠ (b :: u) := by
  intro he
  injection he with h1 _
  exact h h1

theorem pyStrip_of_ends (a b : Char) (mid : List Char)
    (ha : isPyWs a = false) (hb : isPyWs b = false) :
    pyStrip (a :: (mid ++ [b])) = a :: (mid ++ [b]) := by
  unfold pyStrip
  have h1 : (a :: (mid ++ [b])).dropWhile isPyWs = a :: (mid ++ [b]) := by
    simp [List.dropWhile_cons, ha]
  rw [h1]
  have h2 : (a :: (mid ++ [b])).reverse = b :: (mid.reverse ++ [a]) := by
    simp
  rw [h2]
  have h3 : (b :: (mid.reverse ++ [a])).dropWhile isPyWs =
      b :: (mid.reverse ++ [a]) := by
    simp [List.dropWhile_cons, hb]
  rw [h3, ← h2, List.reverse_reverse]

theorem isAlpha_not_ws {c : Char} (h : c.isAlpha = true) :
    isPyWs c = false := by
  by_contra hws
  have hws' : isPyWs c = true := by revert hws; cases isPyWs c <;> simp
  simp only [isPyWs, decide_eq_true_eq] at hws'
  rcases hws' with rfl | rfl | rfl | rfl | rfl | rfl <;>
    exact absurd h (by decide)

theorem matchPlayerCore_inv {cs : List Char} {p : Nat} {r : List Char}
    (h : matchPlayerCore cs = some (p, r)) :
    ∃ ds, ds ≠ [] ∧ cs = "Player ".data ++ (ds ++ r) := by
  unfold matchPlayerCore at h
  cases hd : dropLit "Player ".data cs with
  | none => simp [hd] at h
  | some r₀ =>
    simp only [hd] at h
    obtain ⟨hr₀, hne⟩ := parseNat?_inv h
    exact ⟨r₀.takeWhile Char.isDigit, hne, by rw [dropLit_inv hd, ← hr₀]⟩

theorem matchPlayerLabel_inv {cs : List Char} {p : Nat}
    (h : matchPlayerLabel cs = some p) :
    matchPlayerCore cs = some (p, [':']) ∧
    ∃ ds, ds ≠ [] ∧ cs = "Player ".data ++ (ds ++ [':']) := by
  unfold matchPlayerLabel at h
  cases hc : matchPlayerCore cs with
  | none => simp [hc] at h
  | some pr =>
    obtain ⟨p', rest⟩ := pr
    simp only [hc] at h
    split at h
    · rename_i hrest
      subst hrest
      obtain rfl := Option.some.inj h
      exact ⟨rfl, matchPlayerCore_inv hc⟩
    · exact Option.noConfusion h

theorem matchFaceCore_inv {cs : List Char} {w₁ w₂ t : List Char}
    (h : matchFaceCore cs = some (w₁, w₂, t)) :
    cs = "- ".data ++ (w₁ ++ (" of ".data ++ (w₂ ++ t))) ∧
    w₂ ≠ [] ∧ ∀ ch ∈ w₂, ch.isAlpha = true := by
  unfold matchFaceCore at h
  cases hd : dropLit "- ".data cs with
  | none => simp [hd] at h
  | some r₀ =>
    simp only [hd] at h
    cases hw1 : parseWord? r₀ with
    | none => simp [hw1] at h
    | some pr₁ =>
      obtain ⟨w₁', r₁⟩ := pr₁
      simp only [hw1] at h
      cases hof : dropLit " of ".data r₁ with
      | none => simp [hof] at h
      | some r₂ =>
        simp only [hof] at h
        cases hw2 : parseWord? r₂ with
        | none => simp [hw2] at h
        | some pr₂ =>
          obtain ⟨w₂', r₃⟩ := pr₂
          simp only [hw2, Option.some.injEq, Prod.mk.injEq] at h
          obtain ⟨rfl, rfl, rfl⟩ := h
          obtain ⟨hr₀, -, -⟩ := parseWord?_inv hw1
          obtain ⟨hr₂, hw₂ne, hw₂alpha⟩ := parseWord?_inv hw2
          refine ⟨?_, hw₂ne, hw₂alpha⟩
          rw [dropLit_inv hd, hr₀, dropLit_inv hof, hr₂]

theorem matchFaceUpStruct_inv {cs : List Char} {w₁ w₂ : List Char}
    (h : matchFaceUpStruct cs = some (w₁, w₂)) :
    matchFaceCore cs = some (w₁, w₂, []) := by
  unfold matchFaceUpStruct at h
  cases hc : matchFaceCore cs with
  | none => simp [hc] at h
  | some tr =>
    obtain ⟨w₁', w₂', t⟩ := tr
    simp only [hc] at h
    split at h
    · rename_i ht
      subst ht
      simp only [Option.some.injEq, Prod.mk.injEq] at h
      obtain ⟨rfl, rfl⟩ := h
      rfl
    · exact Option.noConfusion h

theorem matchFaceDownStruct_inv {cs : List Char} {w₁ w₂ : List Char}
    (h : matchFaceDownStruct cs = some (w₁, w₂)) :
    matchFaceCore cs = some (w₁, w₂, " (face down)".data) := by
  unfold matchFaceDownStruct at h
  cases hc : matchFaceCore cs with
  | none => simp [hc] at h
  | some tr =>
    obtain ⟨w₁', w₂', t⟩ := tr
    simp only [hc] at h
    split at h
    · rename_i ht
      subst ht
      simp only [Option.some.injEq, Prod.mk.injEq] at h
      obtain ⟨rfl, rfl⟩ := h
      rfl
    · exact Option.noConfusion h

theorem matchRoundWinnerStruct_inv {cs : List Char} {p : Nat}
    {w₁ w₂ : List Char} (h : matchRoundWinnerStruct cs = some (p, w₁, w₂)) :
    (∃ mid, matchRoundCore cs = some ("winner: Player ".data ++ mid)) ∧
    ∃ mid, cs = 'R' :: (mid ++ [')']) := by
  unfold matchRoundWinnerStruct at h
  cases hrc : matchRoundCore cs with
  | none => simp [hrc] at h
  | some r₀ =>
    simp only [hrc] at h
    cases hwp : dropLit "winner: Player ".data r₀ with
    | none => simp [hwp] at h
    | some r₁ =>
      simp only [hwp] at h
      cases hn : parseNat? r₁ with
      | none => simp [hn] at h
      | some pr =>
        obtain ⟨p', r₂⟩ := pr
        simp only [hn] at h
        cases hpar : dropLit " (".data r₂ with
        | none => simp [hpar] at h
        | some r₃ =>
          simp only [hpar] at h
          cases hw1 : parseWord? r₃ with
          | none => simp [hw1] at h
          | some pr₁ =>
            obtain ⟨w₁', r₄⟩ := pr₁
            simp only [hw1] at h
            cases hof : dropLit " of ".data r₄ with
            | none => simp [hof] at h
            | some r₅ =>
              simp only [hof] at h
              cases hw2 : parseWord? r₅ with
              | none => simp [hw2] at h
              | some pr₂ =>
                obtain ⟨w₂', r₆⟩ := pr₂
                simp only [hw2] at h
                split at h
                · rename_i hr₆
                  subst hr₆
                  refine ⟨⟨r₁, by rw [dropLit_inv hwp]⟩, ?_⟩
                  obtain ⟨hr₁, -⟩ := parseNat?_inv hn
                  obtain ⟨hr₃, -, -⟩ := parseWord?_inv hw1
                  obtain ⟨hr₅, -, -⟩ := parseWord?_inv hw2
                  refine ⟨"ound winner: Player ".data ++
                    (r₁.takeWhile Char.isDigit ++ (" (".data ++
                      (w₁' ++ (" of ".data ++ w₂')))), ?_⟩
                  conv_lhs =>
                    rw [dropLit_inv hrc, dropLit_inv hwp, hr₁,
                      dropLit_inv hpar, hr₃, dropLit_inv hof, hr₅]
                  simp
                · exact Option.noConfusion h

theorem matchGameWinnerStruct_inv {cs : List Char} {p c : Nat}
    (h : matchGameWinnerStruct cs = some (p, c)) :
    (∃ r₁ r₂, matchPlayerCore cs = some (p, r₁) ∧
      dropLit " wins with ".data r₁ = some r₂) ∧
    ∃ mid, cs = 'P' :: (mid ++ ['k']) := by
  unfold matchGameWinnerStruct at h
  cases hc : matchPlayerCore cs with
  | none => simp [hc] at h
  | some pr =>
    obtain ⟨p', r₁⟩ := pr
    simp only [hc] at h
    cases hw : dropLit " wins with ".data r₁ with
    | none => simp [hw] at h
    | some r₂ =>
      simp only [hw] at h
      cases hn : parseNat? r₂ with
      | none => simp [hn] at h
      | some pr₂ =>
        obtain ⟨c', r₃⟩ := pr₂
        simp only [hn] at h
        split at h
        · rename_i hr₃
          subst hr₃
          simp only [Option.some.injEq, Prod.mk.injEq] at h
          obtain ⟨rfl, rfl⟩ := h
          refine ⟨⟨r₁, r₂, rfl, hw⟩, ?_⟩
          obtain ⟨ds, -, hcs⟩ := matchPlayerCore_inv hc
          obtain ⟨hr₂, -⟩ := parseNat?_inv hn
          refine ⟨"layer ".data ++ (ds ++ (" wins with ".data ++
            (r₂.takeWhile Char.isDigit ++ " cards in their dec".data))), ?_⟩
          conv_lhs => rw [hcs, dropLit_inv hw, hr₂]
          simp
        · exact Option.noConfusion h

theorem findSome?_eq_none {α β : Type} (f : α → Option β) (l : List α)
    (h : ∀ x ∈ l, f x = none) : l.findSome? f = none := by
  induction l with
  | nil => rfl
  | cons a l ih =>
    simp [List.findSome?_cons, h a (by simp),
      ih (fun x hx => h x (by simp [hx]))]

theorem laterSuccess_eq_none {cs : List Char} {i : Nat}
    (h : ∀ j, i < j → j < 10 → ruleResult [1, 2] 52 j cs = none) :
    laterSuccess [1, 2] 52 i cs = none := by
  unfold laterSuccess
  apply findSome?_eq_none
  intro j hj
  simp only [List.mem_filter, List.mem_range, decide_eq_true_eq] at hj
  exact h j hj.2 hj.1

theorem specFallthrough_malformed {s : String} {i : Nat}
    (h : laterSuccess [1, 2] 52 i s.data = none) :
    specFallthrough [1, 2] 52 i s = .malformed s := by
  unfold specFallthrough
  rw [h]

/-- **C2 (counterexample).**  The claim says a transcript whose
`GameWinner` line declares a wrong card count in `[0, 52]` is rejected;
this complete 158-line transcript declares 7 while player 1 actually
holds 52 cards, and `validate_lines` accepts it (`error = none`). -/
theorem c2_counterexample :
    (validateLinesDefault wrongCountTranscript).error = none ∧
    wrongCountTranscript.getLast? =
      some "Player 1 wins with 7 cards in their deck" ∧
    parseLineDefault "Player 1 wins with 7 cards in their deck" =
      .gameWinner 1 7 ∧
    alookup (validateLinesAux initialVState 1
      wrongCountTranscript).2.ccv.actualCardCounts 1 = some 52 ∧
    (7 : Nat) ≠ 52 := by
  refine ⟨by decide, by decide, by decide, by decide, by decide⟩


/-- **C7.**  For every line that structurally matches a grammar rule
while its captured fields fail secondary validation, the classifier's
result coincides with the spec's description: the first later rule that
fully succeeds — there never is one, since the rules are pairwise
exclusive — or `Malformed` carrying the original text. -/
theorem c7_validation_failure_fallthrough (s : String) (i : Nat)
    (hnl : '\n' ∉ s.data) (hf : StructFail s.data i) :
    parseLineDefault s = specFallthrough [1, 2] 52 i s := by
  cases hf with
  | playerLabel hpl hp =>
    rename_i p
    obtain ⟨hcore, ds, hdsne, hshape⟩ := matchPlayerLabel_inv hpl
    have hshape' : s.data = 'P' :: (("layer ".data ++ ds) ++ [':']) := by
      rw [hshape]; simp
    have hstrip : pyStrip s.data = s.data := by
      rw [hshape']
      exact pyStrip_of_ends _ _ _ (by decide) (by decide)
    have hne : s.data ≠ [] := by rw [hshape']; simp
    have h0 : matchRound s.data = none := by rw [hshape]; rfl
    have h2 : matchFaceUpStruct s.data = none := by rw [hshape]; rfl
    have h3 : matchFaceDownStruct s.data = none := by rw [hshape]; rfl
    have h4 : matchRoundWinnerStruct s.data = none := by rw [hshape]; rfl
    have h6 : matchWarRound s.data = none := by rw [hshape]; rfl
    have h8 : matchGameWinnerStruct s.data = none := by
      unfold matchGameWinnerStruct
      rw [hcore]
      rfl
    have h5 : s.data ≠ "Commencing war...".data := by
      rw [hshape']; exact cons_ne_of_head (by decide)
    have h7 : s.data ≠ "Continuing war...".data := by
      rw [hshape']; exact cons_ne_of_head (by decide)
    have h9 : s.data ≠ "The game ended in a draw".data := by
      rw [hshape']; exact cons_ne_of_head (by decide)
    have hcode : parseLineDefault s = .malformed s := by
      unfold parseLineDefault parseLine
      rw [if_neg hnl, hstrip]
      unfold classifyStripped
      rw [if_neg hne]
      simp only [h0, hpl]
      rw [if_neg hp]
    have hspec : specFallthrough [1, 2] 52 1 s = .malformed s := by
      apply specFallthrough_malformed
      apply laterSuccess_eq_none
      intro j hj1 hj2
      interval_cases j
      · simp [ruleResult, h2]
      · simp [ruleResult, h3]
      · simp [ruleResult, h4]
      · simp [ruleResult, h5]
      · simp [ruleResult, h6]
      · simp [ruleResult, h7]
      · simp [ruleResult, h8]
      · simp [ruleResult, h9]
    rw [hcode, hspec]
  | faceUp hfu hfail =>
    rename_i w₁ w₂
    have hcore := matchFaceUpStruct_inv hfu
    obtain ⟨hshape, hw₂ne, hw₂alpha⟩ := matchFaceCore_inv hcore
    rcases List.eq_nil_or_concat w₂ with rfl | ⟨w₂i, b, hw₂⟩
    · exact absurd rfl hw₂ne
    rw [List.concat_eq_append] at hw₂
    subst hw₂
    have hb : b.isAlpha = true := hw₂alpha b (by simp)
    have hshape' :
        s.data = '-' :: ((' ' :: (w₁ ++ (" of ".data ++ w₂i))) ++ [b]) := by
      rw [hshape]; simp
    have hstrip : pyStrip s.data = s.data := by
      rw [hshape']
      exact pyStrip_of_ends _ _ _ (by decide) (isAlpha_not_ws hb)
    have hne : s.data ≠ [] := by rw [hshape']; simp
    have h0 : matchRound s.data = none := by rw [hshape]; rfl
    have h1 : matchPlayerLabel s.data = none := by rw [hshape]; rfl
    have h3 : matchFaceDownStruct s.data = none := by
      unfold matchFaceDownStruct
      rw [hcore]
      rfl
    have h4 : matchRoundWinnerStruct s.data = none := by rw [hshape]; rfl
    have h6 : matchWarRound s.data = none := by rw [hshape]; rfl
    have h8 : matchGameWinnerStruct s.data = none := by rw [hshape]; rfl
    have h5 : s.data ≠ "Commencing war...".data := by
      rw [hshape']; exact cons_ne_of_head (by decide)
    have h7 : s.data ≠ "Continuing war...".data := by
      rw [hshape']; exact cons_ne_of_head (by decide)
    have h9 : s.data ≠ "The game ended in a draw".data := by
      rw [hshape']; exact cons_ne_of_head (by decide)
    have hcode : parseLineDefault s = .malformed s := by
      unfold parseLineDefault parseLine
      rw [if_neg hnl, hstrip]
      unfold classifyStripped
      rw [if_neg hne]
      simp only [h0, h1, hfu]
      rcases hfail with hfr | hfs
      · simp [hfr]
      · cases hr : Rank.fromStr w₁ with
        | none => simp [hr]
        | some r => simp [hr, hfs]
    have hspec : specFallthrough [1, 2] 52 2 s = .malformed s := by
      apply specFallthrough_malformed
      apply laterSuccess_eq_none
      intro j hj1 hj2
      interval_cases j
      · simp [ruleResult, h3]
      · simp [ruleResult, h4]
      · simp [ruleResult, h5]
      · simp [ruleResult, h6]
      · simp [ruleResult, h7]
      · simp [ruleResult, h8]
      · simp [ruleResult, h9]
    rw [hcode, hspec]
  | faceDown hfd hfail =>
    rename_i w₁ w₂
    have hcore := matchFaceDownStruct_inv hfd
    obtain ⟨hshape, hw₂ne, hw₂alpha⟩ := matchFaceCore_inv hcore
    have hshape' : s.data =
        '-' :: ((' ' :: (w₁ ++ (" of ".data ++ (w₂ ++ " (face down".data))))
          ++ [')']) := by
      rw [hshape]; simp
    have hstrip : pyStrip s.data = s.data := by
      rw [hshape']
      exact pyStrip_of_ends _ _ _ (by decide) (by decide)
    have hne : s.data ≠ [] := by rw [hshape']; simp
    have h0 : matchRound s.data = none := by rw [hshape]; rfl
    have h1 : matchPlayerLabel s.data = none := by rw [hshape]; rfl
    have h2 : matchFaceUpStruct s.data = none := by
      unfold matchFaceUpStruct
      rw [hcore]
      rfl
    have h4 : matchRoundWinnerStruct s.data = none := by rw [hshape]; rfl
    have h6 : matchWarRound s.data = none := by rw [hshape]; rfl
    have h8 : matchGameWinnerStruct s.data = none := by rw [hshape]; rfl
    have h5 : s.data ≠ "Commencing war...".data := by
      rw [hshape']; exact cons_ne_of_head (by decide)
    have h7 : s.data ≠ "Continuing war...".data := by
      rw [hshape']; exact cons_ne_of_head (by decide)
    have h9 : s.data ≠ "The game ended in a draw".data := by
      rw [hshape']; exact cons_ne_of_head (by decide)
    have hcode : parseLineDefault s = .malformed s := by
      unfold parseLineDefault parseLine
      rw [if_neg hnl, hstrip]
      unfold classifyStripped
      rw [if_neg hne]
      simp only [h0, h1, h2, hfd]
      rcases hfail with hfr | hfs
      · simp [hfr]
      · cases hr : Rank.fromStr w₁ with
        | none => simp [hr]
        | some r => simp [hr, hfs]
    have hspec : specFallthrough [1, 2] 52 3 s = .malformed s := by
      apply specFallthrough_malformed
      apply laterSuccess_eq_none
      intro j hj1 hj2
      interval_cases j
      · simp [ruleResult, h4]
      · simp [ruleResult, h5]
      · simp [ruleResult, h6]
      · simp [ruleResult, h7]
      · simp [ruleResult, h8]
      · simp [ruleResult, h9]
    rw [hcode, hspec]
  | roundWinner hrw hfail =>
    rename_i p w₁ w₂
    obtain ⟨⟨mid₂, hrc⟩, mid, hshape'⟩ := matchRoundWinnerStruct_inv hrw
    have hstrip : pyStrip s.data = s.data := by
      rw [hshape']
      exact pyStrip_of_ends _ _ _ (by decide) (by decide)
    have hne : s.data ≠ [] := by rw [hshape']; simp
    have h0 : matchRound s.data = none := by
      unfold matchRound
      rw [hrc]
      rfl
    have h1 : matchPlayerLabel s.data = none := by rw [hshape']; rfl
    have h2 : matchFaceUpStruct s.data = none := by rw [hshape']; rfl
    have h3 : matchFaceDownStruct s.data = none := by rw [hshape']; rfl
    have h6 : matchWarRound s.data = none := by
      unfold matchWarRound
      rw [hrc]
      rfl
    have h8 : matchGameWinnerStruct s.data = none := by rw [hshape']; rfl
    have h5 : s.data ≠ "Commencing war...".data := by
      rw [hshape']; exact cons_ne_of_head (by decide)
    have h7 : s.data ≠ "Continuing war...".data := by
      rw [hshape']; exact cons_ne_of_head (by decide)
    have h9 : s.data ≠ "The game ended in a draw".data := by
      rw [hshape']; exact cons_ne_of_head (by decide)
    have hcode : parseLineDefault s = .malformed s := by
      unfold parseLineDefault parseLine
      rw [if_neg hnl, hstrip]
      unfold classifyStripped
      rw [if_neg hne]
      simp only [h0, h1, h2, h3, hrw]
      rcases hfail with hfp | hfr | hfs
      · cases hr : Rank.fromStr w₁ with
        | none => simp [hr]
        | some r =>
          cases hsu : Suit.fromStr w₂ with
          | none => simp [hr, hsu]
          | some su => simp [hr, hsu, hfp]
      · simp [hfr]
      · cases hr : Rank.fromStr w₁ with
        | none => simp [hr]
        | some r => simp [hr, hfs]
    have hspec : specFallthrough [1, 2] 52 4 s = .malformed s := by
      apply specFallthrough_malformed
      apply laterSuccess_eq_none
      intro j hj1 hj2
      interval_cases j
      · simp [ruleResult, h5]
      · simp [ruleResult, h6]
      · simp [ruleResult, h7]
      · simp [ruleResult, h8]
      · simp [ruleResult, h9]
    rw [hcode, hspec]
  | gameWinner hgw hfail =>
    rename_i p c
    obtain ⟨⟨r₁, r₂, hcore, hw⟩, mid, hshape'⟩ := matchGameWinnerStruct_inv hgw
    have hstrip : pyStrip s.data = s.data := by
      rw [hshape']
      exact pyStrip_of_ends _ _ _ (by decide) (by decide)
    have hne : s.data ≠ [] := by rw [hshape']; simp
    have h0 : matchRound s.data = none := by rw [hshape']; rfl
    have h1 : matchPlayerLabel s.data = none := by
      unfold matchPlayerLabel
      rw [hcore, dropLit_inv hw]
      rfl
    have h2 : matchFaceUpStruct s.data = none := by rw [hshape']; rfl
    have h3 : matchFaceDownStruct s.data = none := by rw [hshape']; rfl
    have h4 : matchRoundWinnerStruct s.data = none := by rw [hshape']; rfl
    have h6 : matchWarRound s.data = none := by rw [hshape']; rfl
    have h5 : s.data ≠ "Commencing war...".data := by
      rw [hshape']; exact cons_ne_of_head (by decide)
    have h7 : s.data ≠ "Continuing war...".data := by
      rw [hshape']; exact cons_ne_of_head (by decide)
    have h9 : s.data ≠ "The game ended in a draw".data := by
      rw [hshape']; exact cons_ne_of_head (by decide)
    have hcond : ¬(p ∈ ([1, 2] : List Nat) ∧ c ≤ 52) := by
      rcases hfail with hfp | hfc
      · exact fun hand => hfp hand.1
      · exact fun hand => absurd hand.2 (by omega)
    have hcode : parseLineDefault s = .malformed s := by
      unfold parseLineDefault parseLine
      rw [if_neg hnl, hstrip]
      unfold classifyStripped
      rw [if_neg hne]
      simp only [h0, h1, h2, h3, h4, h6, hgw]
      rw [if_neg h5, if_neg h7, if_neg hcond]
    have hspec : specFallthrough [1, 2] 52 8 s = .malformed s := by
      apply specFallthrough_malformed
      apply laterSuccess_eq_none
      intro j hj1 hj2
      interval_cases j
      simp [ruleResult, h9]
    rw [hcode, hspec]

/-- Witness for C7: `"Player 3:"` structurally matches the player-label
rule, fails the player-number validation, no later rule succeeds, and
the result is `Malformed` of the original text. -/
theorem c7_witness :
    parseLineDefault "Player 3:" = specFallthrough [1, 2] 52 1 "Player 3:" :=
  c7_validation_failure_fallthrough "Player 3:" 1 (by decide)
    (@StructFail.playerLabel "Player 3:".data 3 (by decide) (by decide))


end War
